import Mathlib

/-!
Verification development for the SolarSystemSim physics core
(src/solarsym/system/body.py and src/solarsym/system/system.py).

Shallow embedding conventions:
* Python floats are modelled as exact rationals (ℚ).
* Python float division raises ZeroDivisionError on a zero denominator, so
  every division taken from the source goes through `fdiv`, which returns
  `Except Unit ℚ`; any function that can divide is `Except`-valued.
* math.sqrt is modelled by `fsqrt`, an exact rational square root on
  perfect squares (all arguments arising in the concrete scenarios below
  are perfect squares); math.sqrt never raises here because every argument
  in the source is a sum of squares.
* Python object identity (used by `==` on bodies, by the sets
  bodies_to_remove / bodies_to_merge, and by list.remove) is modelled by
  the `oid` field; the simulator only ever stores distinct objects in the
  pool, so pools are assumed/constructed with distinct oids where that
  matters.
* Python set iteration order is unspecified; sets are modelled as
  insertion-ordered duplicate-free lists, and only membership is relied
  upon.
-/

/-- GRAVITY_CONSTANT = 6.67430e3 from body.py. -/
def GRAVITY_CONSTANT : ℚ := 66743 / 10

/-- SYSTEM_SCALE = 0.01 from body.py. -/
def SYSTEM_SCALE : ℚ := 1 / 100

/-- COLLISION_DAMPENING = 0.01 from body.py. -/
def COLLISION_DAMPENING : ℚ := 1 / 100

/-- 2D vector of rationals, modelling the 2-element Python float lists. -/
abbrev Vec2 : Type := ℚ × ℚ

/-- Model of Python float division: raises (returns error) on a zero
denominator, exact rational division otherwise. -/
def fdiv (a b : ℚ) : Except Unit ℚ :=
  if b = 0 then .error () else .ok (a / b)

/-- Model of math.sqrt on nonnegative rationals: exact on rationals that
are squares of rationals (every reduced square has square numerator and
denominator), an integer-sqrt approximation otherwise.  All concrete
scenarios in this file use perfect-square arguments, and the theorems
never depend on the value at non-squares. -/
def fsqrt (q : ℚ) : ℚ :=
  (Int.sqrt q.num : ℚ) / (Nat.sqrt q.den : ℚ)

/-- The body record from body.py (SystemBody).  `oid` models Python object
identity and is not a field of the source class. -/
structure SystemBody where
  oid : ℕ
  name : String
  mass : ℚ
  radius : ℚ
  color : ℚ × ℚ × ℚ
  position : Vec2
  velocity : Vec2
  acceleration : Vec2
deriving Repr

/-- SystemBody.CollisionInfo from body.py. -/
structure CollisionInfo where
  granularity : ℕ
  bias : ℚ
  impulse : ℚ
  reflect_dir : Vec2
deriving Repr

/-- SystemBody.GravityInfo from body.py. -/
structure GravityInfo where
  force : ℚ
  direction : Vec2
deriving Repr

/-- SystemBody.__init__ from body.py: stores every argument verbatim
(there is no validation and no clamping in the source) and zeroes the
acceleration.  The source defaults velocity to (0, 0); callers here pass
it explicitly.  `oid` models the identity of the freshly created object. -/
def SystemBody.init (oid : ℕ) (name : String) (mass radius : ℚ)
    (color : ℚ × ℚ × ℚ) (position velocity : Vec2) : SystemBody :=
  { oid := oid, name := name, mass := mass, radius := radius,
    color := color, position := (position.1, position.2),
    velocity := (velocity.1, velocity.2), acceleration := (0, 0) }

/-- SystemBody.calc_gravity_acceleration from body.py: scalar magnitude
G * mass(other) / distanceSquared; the division raises when the two
positions coincide. -/
def SystemBody.calc_gravity_acceleration (self other : SystemBody) :
    Except Unit ℚ := do
  let dist_x := other.position.1 - self.position.1
  let dist_y := other.position.2 - self.position.2
  let dist_sqr := dist_x ^ 2 + dist_y ^ 2
  let mass_x := other.mass
  fdiv (GRAVITY_CONSTANT * mass_x) dist_sqr

/-- SystemBody.calc_gravity_at_point from body.py: the squared distance is
floored to radius^2, force is G / flooredDistanceSquared, and the
direction is the raw displacement divided by the floored distance. -/
def SystemBody.calc_gravity_at_point (self : SystemBody) (point : Vec2) :
    Except Unit GravityInfo := do
  let dist_x := point.1 - self.position.1
  let dist_y := point.2 - self.position.2
  let dist_sqr0 := dist_x ^ 2 + dist_y ^ 2
  let dist_sqr := max dist_sqr0 (self.radius ^ 2)
  let dist := fsqrt dist_sqr
  let force ← fdiv GRAVITY_CONSTANT dist_sqr
  let dx ← fdiv dist_x dist
  let dy ← fdiv dist_y dist
  .ok { force := force, direction := (dx, dy) }

/-- SystemBody.calc_collision_bias from body.py, translated line by line.
Divisions raise (error) on zero denominators exactly where the Python
float divisions would raise ZeroDivisionError; in particular the
collision-normal computation divides by the squared magnitude of the
relative position, which is reached (after the intersection test) even
when the two positions coincide. -/
def SystemBody.calc_collision_bias (self other : SystemBody) :
    Except Unit (Option CollisionInfo) := do
  let rel_vel : Vec2 :=
    (self.velocity.1 - other.velocity.1, self.velocity.2 - other.velocity.2)
  let rel_pos : Vec2 :=
    (self.position.1 - other.position.1, self.position.2 - other.position.2)
  let rel_pos_mag := rel_pos.1 ^ 2 + rel_pos.2 ^ 2
  let distance := fsqrt rel_pos_mag
  let intersection := self.radius + other.radius - distance
  if intersection < 0 then
    .ok none
  else do
    let nx ← fdiv rel_pos.1 rel_pos_mag
    let ny ← fdiv rel_pos.2 rel_pos_mag
    let rel_vel_n := rel_vel.1 * nx + rel_vel.2 * ny
    if 0 ≤ rel_vel_n then
      .ok none
    else do
      let minv_self ← fdiv 1 self.mass
      let minv_other ← fdiv 1 other.mass
      let impulse0 ← fdiv (-2 * rel_vel_n) (minv_self + minv_other)
      let mfactor ← fdiv other.mass self.mass
      let impulse1 := impulse0 * mfactor * COLLISION_DAMPENING
      let impulse ← fdiv impulse1 SYSTEM_SCALE
      let rel_vel_mag := fsqrt (rel_vel.1 ^ 2 + rel_vel.2 ^ 2)
      let rvx ← fdiv rel_vel.1 rel_vel_mag
      let rvy ← fdiv rel_vel.2 rel_vel_mag
      let reflection : Vec2 :=
        (-rvx + 2 * rel_vel_n * nx, -rvy + 2 * rel_vel_n * ny)
      let bias ← fdiv self.mass (self.mass + other.mass)
      .ok (some { granularity := 10, bias := bias, impulse := impulse,
                  reflect_dir := reflection })

/-- RGB (channels in [0,255]) to the HSVA triple (h, s, v) with h in
[0,360) and s, v in [0,100], modelling the pygame.Color(...).hsva getter
idealized over exact rationals (pygame is an external library; its
per-byte rounding is not reproduced; no claim depends on these values). -/
def rgb_to_hsva (c : ℚ × ℚ × ℚ) : ℚ × ℚ × ℚ :=
  let r := c.1 / 255
  let g := c.2.1 / 255
  let b := c.2.2 / 255
  let maxc := max r (max g b)
  let minc := min r (min g b)
  let delta := maxc - minc
  let v := maxc * 100
  let s := if maxc = 0 then 0 else delta / maxc * 100
  let h0 :=
    if delta = 0 then 0
    else if maxc = r then 60 * ((g - b) / delta)
    else if maxc = g then 60 * ((b - r) / delta) + 120
    else 60 * ((r - g) / delta) + 240
  let h := if h0 < 0 then h0 + 360 else h0
  (h, s, v)

/-- HSVA triple (h in [0,360), s and v in [0,100]) back to RGB channels in
[0,255], modelling the pygame.Color hsva setter idealized over exact
rationals. -/
def hsva_to_rgb (h s v : ℚ) : ℚ × ℚ × ℚ :=
  let sf := s / 100
  let vf := v / 100
  let hi : ℤ := ⌊h / 60⌋ % 6
  let f := h / 60 - (⌊h / 60⌋ : ℚ)
  let p := vf * (1 - sf)
  let q := vf * (1 - sf * f)
  let t := vf * (1 - sf * (1 - f))
  let rgb : ℚ × ℚ × ℚ :=
    if hi = 0 then (vf, t, p)
    else if hi = 1 then (q, vf, p)
    else if hi = 2 then (p, vf, t)
    else if hi = 3 then (p, q, vf)
    else if hi = 4 then (t, p, vf)
    else (vf, p, q)
  (rgb.1 * 255, rgb.2.1 * 255, rgb.2.2 * 255)

/-- SystemBody.calc_blended_color from body.py: convert both colors to
HSVA, interpolate hue/saturation/value with weights bias and 1 - bias,
convert back to RGB.  The source default bias is 0.5; callers here pass
the bias explicitly. -/
def SystemBody.calc_blended_color (self other : SystemBody) (bias : ℚ) :
    ℚ × ℚ × ℚ :=
  let hsl_self := rgb_to_hsva self.color
  let hsl_other := rgb_to_hsva other.color
  let hue := hsl_self.1 * bias + hsl_other.1 * (1 - bias)
  let sat := hsl_self.2.1 * bias + hsl_other.2.1 * (1 - bias)
  let light := hsl_self.2.2 * bias + hsl_other.2.2 * (1 - bias)
  hsva_to_rgb hue sat light

/-- The pending-update record SystemBodyPool._UpdateInfo from system.py:
buffered new color/mass/radius/position, accumulated collision
acceleration, recorded (affector, CollisionInfo) pairs, and the affected
body (its start-of-tick record; the source stores the object itself). -/
structure UpdateInfo where
  new_color : ℚ × ℚ × ℚ
  new_mass : ℚ
  new_radius : ℚ
  new_position : Vec2
  due_acceleration : Vec2
  affectors : List (SystemBody × CollisionInfo)
  affected : SystemBody
deriving Repr

/-- The update record as built at the top of the Phase A loop
(update_system lines 129-137): pending values seeded from the affected
body, zero due acceleration. -/
def mkUpdateInfo (affected : SystemBody)
    (pairs : List (SystemBody × CollisionInfo)) : UpdateInfo :=
  { new_color := affected.color, new_mass := affected.mass,
    new_radius := affected.radius, new_position := affected.position,
    due_acceleration := (0, 0), affectors := pairs, affected := affected }

/-- One gravity contribution of `affector` on `affected` (update_system
lines 144-151).  The source decomposes the acceleration through
atan2/cos/sin; cos(atan2(y, x)) and sin(atan2(y, x)) are exactly
x / sqrt(x^2+y^2) and y / sqrt(x^2+y^2) when (x, y) is nonzero, and
math.atan2(0, 0) = 0 gives cos = 1, sin = 0, which is the `dist = 0`
branch below (unreachable in a tick, because calc_gravity_acceleration
raises first on coincident positions). -/
def gravVec (affected affector : SystemBody) : Except Unit Vec2 := do
  let acceleration ← affected.calc_gravity_acceleration affector
  let dx := affected.position.1 - affector.position.1
  let dy := affected.position.2 - affector.position.2
  let dist := fsqrt (dx ^ 2 + dy ^ 2)
  if dist = 0 then
    .ok (-acceleration, 0)
  else
    .ok (-(acceleration * dx) / dist, -(acceleration * dy) / dist)

/-- The gravity half of the Phase A inner loop for one affected body:
accumulate the gravity contribution of every other body (identity
comparison `affected == affector` modelled by oid equality).  The source
accumulates onto the body's acceleration in place; nothing in the pass
reads accelerations, so the accumulation is kept separate here. -/
def gravAccum (affected : SystemBody) :
    List SystemBody → Vec2 → Except Unit Vec2
  | [], acc => .ok acc
  | affector :: rest, acc =>
    if affected.oid = affector.oid then gravAccum affected rest acc
    else do
      let v ← gravVec affected affector
      gravAccum affected rest (acc.1 + v.1, acc.2 + v.2)

/-- The collision half of the Phase A inner loop for one affected body:
collect the (affector, CollisionInfo) pairs in pool order (update_system
lines 139-159), skipping the body itself. -/
def collPairs (affected : SystemBody) :
    List SystemBody → List (SystemBody × CollisionInfo) →
    Except Unit (List (SystemBody × CollisionInfo))
  | [], acc => .ok acc
  | affector :: rest, acc =>
    if affected.oid = affector.oid then collPairs affected rest acc
    else do
      let c ← affected.calc_collision_bias affector
      match c with
      | none => collPairs affected rest acc
      | some info => collPairs affected rest (acc ++ [(affector, info)])

/-- Phase A over the whole pool: one pending-update record per body that
collected at least one collision pair (update_system lines 128-162). -/
def pendingAux (pool : List SystemBody) :
    List SystemBody → List UpdateInfo → Except Unit (List UpdateInfo)
  | [], acc => .ok acc
  | affected :: rest, acc => do
    let pairs ← collPairs affected pool []
    if pairs.isEmpty then pendingAux pool rest acc
    else pendingAux pool rest (acc ++ [mkUpdateInfo affected pairs])

/-- The pending updates of one tick. -/
def pendingUpdates (pool : List SystemBody) : Except Unit (List UpdateInfo) :=
  pendingAux pool pool []

/-- The gravity-accumulation effect of Phase A on the whole pool: every
body gains its summed gravity contributions on top of its incoming
acceleration. -/
def gravityPool (pool : List SystemBody) :
    List SystemBody → Except Unit (List SystemBody)
  | [] => .ok []
  | b :: rest => do
    let g ← gravAccum b pool (0, 0)
    let rest2 ← gravityPool pool rest
    .ok ({ b with acceleration := (b.acceleration.1 + g.1, b.acceleration.2 + g.2) } :: rest2)

/-- The mutable resolution state of Phase B (update_system lines 122-125):
bodies_to_remove, bodies_to_merge (both Python sets of bodies, modelled by
insertion-ordered duplicate-free oid lists) and body_merge_info. -/
structure BState where
  removeIds : List ℕ
  mergeIds : List ℕ
  mergePairs : List (SystemBody × SystemBody)
deriving Repr

/-- Insertion into a Python set modelled on a duplicate-free list. -/
def insertId (n : ℕ) (l : List ℕ) : List ℕ :=
  if n ∈ l then l else l ++ [n]

/-- A rational approximation of tan(0.05), used to phrase the
reflection-angle test of update_system lines 176-177 exactly over ℚ (see
`mergeAngleCond`).  Only inputs with reflect_dir.2 = 0 occur in the
concrete scenarios, for which the test is independent of this constant. -/
def TAN005 : ℚ := 50041708375 / 1000000000000

/-- The reflection-angle half of the merge test (update_system lines
176-177): with theta = atan2(reflect_dir.2, reflect_dir.1) in (-pi, pi],
|theta| >= pi - 0.05 holds iff the direction points within 0.05 radians
of the negative x-axis (x < 0 and |y| <= -x * tan 0.05), and
|theta| < 0.05 holds iff it points within 0.05 radians of the positive
x-axis (x > 0 and |y| < x * tan 0.05), with atan2(0, 0) = 0 also
satisfying the latter. -/
def mergeAngleCond (v : Vec2) : Prop :=
  (0 < v.1 ∧ |v.2| < v.1 * TAN005) ∨ (v.1 = 0 ∧ v.2 = 0) ∨
    (v.1 < 0 ∧ |v.2| ≤ -v.1 * TAN005)

instance (v : Vec2) : Decidable (mergeAngleCond v) := by
  unfold mergeAngleCond; infer_instance

/-- The merge test of update_system line 177: weak or near head-on impact
(reflection within 0.05 rad of the x-axis, or impulse below 10). -/
def mergeCond (info : CollisionInfo) : Prop :=
  mergeAngleCond info.reflect_dir ∨ info.impulse < 10

instance (info : CollisionInfo) : Decidable (mergeCond info) := by
  unfold mergeCond; infer_instance

/-- The partial-transfer arm of Phase B (update_system lines 184-197):
scale pending mass/radius by the bias, add the affector share, accumulate
impulse * reflection onto the pending acceleration, set the pending color
to the blend (computed from the affected body record, not from the
pending color).  The `bias >= 0.9` test that follows it in the source
only guards dead code and has no effect. -/
def transferUpdate (u : UpdateInfo) (affector : SystemBody)
    (info : CollisionInfo) : UpdateInfo :=
  let nm0 := u.new_mass * info.bias
  let nr0 := u.new_radius * info.bias
  let nm := nm0 + affector.mass * (1 - info.bias)
  let nr := nr0 + affector.radius * (1 - info.bias)
  let da : Vec2 :=
    (u.due_acceleration.1 + info.impulse * info.reflect_dir.1,
     u.due_acceleration.2 + info.impulse * info.reflect_dir.2)
  let nc := u.affected.calc_blended_color affector info.bias
  { u with new_mass := nm, new_radius := nr, due_acceleration := da,
           new_color := nc }

/-- One iteration of the Phase B inner loop (update_system lines
166-202) on the pending record and resolution state:
skip self pairs; bias < 0.1 marks the affected body for removal and
continues; a merge-test hit claims both bodies for a merge unless the
affected body is already claimed (in which case the pair is skipped
entirely); every non-skipped pair then receives the partial transfer. -/
def processPair (st : UpdateInfo × BState) (p : SystemBody × CollisionInfo) :
    UpdateInfo × BState :=
  let u := st.1
  let s := st.2
  let affector := p.1
  let info := p.2
  if u.affected.oid = affector.oid then st
  else if info.bias < 1 / 10 then
    (u, { s with removeIds := insertId u.affected.oid s.removeIds })
  else if mergeCond info ∧ u.affected.oid ∈ s.mergeIds then st
  else
    let s2 :=
      if mergeCond info then
        { s with
          mergeIds := insertId affector.oid (insertId u.affected.oid s.mergeIds),
          mergePairs := s.mergePairs ++ [(u.affected, affector)] }
      else s
    (transferUpdate u affector info, s2)

/-- Phase B over one pending record: fold its pairs in discovery order. -/
def processUpdate (s : BState) (u : UpdateInfo) : UpdateInfo × BState :=
  u.affectors.foldl processPair (u, s)

/-- Phase B over all pending records (update_system lines 165-202),
returning the mutated records in order together with the final
resolution state. -/
def phaseB : List UpdateInfo → List UpdateInfo → BState →
    List UpdateInfo × BState
  | [], acc, s => (acc, s)
  | u :: rest, acc, s =>
    let r := processUpdate s u
    phaseB rest (acc ++ [r.1]) r.2

/-- _UpdateInfo.apply from system.py (lines 41-48) on the body with the
matching identity: commit pending color/mass/radius and overwrite the
acceleration with the accumulated due acceleration. -/
def applyOne (bodies : List SystemBody) (u : UpdateInfo) : List SystemBody :=
  bodies.map fun b =>
    if b.oid = u.affected.oid then
      { b with color := u.new_color, mass := u.new_mass,
               radius := u.new_radius, acceleration := u.due_acceleration }
    else b

/-- The commit loop of Phase C (update_system lines 224-227): apply every
pending record whose affected body was not claimed by a merge. -/
def applyAll (bodies : List SystemBody) (ups : List UpdateInfo)
    (mergeIds : List ℕ) : List SystemBody :=
  ups.foldl
    (fun bs u => if u.affected.oid ∈ mergeIds then bs else applyOne bs u)
    bodies

/-- The merge synthesis of Phase C (update_system lines 229-241): summed
mass and radius, color blended at the default bias 0.5, mass-weighted
position and velocity, name formed as name1 ++ "_" ++ name2.  `fid` is
the identity of the freshly constructed object. -/
def mergeBody (body1 body2 : SystemBody) (fid : ℕ) : Except Unit SystemBody := do
  let new_mass := body1.mass + body2.mass
  let new_radius := body1.radius + body2.radius
  let new_color := body1.calc_blended_color body2 (1 / 2)
  let px ← fdiv (body1.position.1 * body1.mass + body2.position.1 * body2.mass) new_mass
  let py ← fdiv (body1.position.2 * body1.mass + body2.position.2 * body2.mass) new_mass
  let vx ← fdiv (body1.velocity.1 * body1.mass + body2.velocity.1 * body2.mass) new_mass
  let vy ← fdiv (body1.velocity.2 * body1.mass + body2.velocity.2 * body2.mass) new_mass
  .ok { oid := fid, name := body1.name ++ "_" ++ body2.name,
        mass := new_mass, radius := new_radius, color := new_color,
        position := (px, py), velocity := (vx, vy), acceleration := (0, 0) }

/-- Synthesize every merge pair in order, with consecutive fresh ids. -/
def synthAll : List (SystemBody × SystemBody) → ℕ →
    Except Unit (List SystemBody)
  | [], _ => .ok []
  | p :: rest, fid => do
    let b ← mergeBody p.1 p.2 fid
    let bs ← synthAll rest (fid + 1)
    .ok (b :: bs)

/-- The first object identity strictly larger than every identity in the
pool; fresh merged bodies receive consecutive identities from here. -/
def nextId (pool : List SystemBody) : ℕ :=
  pool.foldl (fun m b => max m b.oid) 0 + 1

/-- bodies_to_remove after the merge loop (update_system lines 242-243):
the Phase B removals plus both members of every merge pair. -/
def removeAllIds (s : BState) : List ℕ :=
  s.mergePairs.foldl (fun l pr => insertId pr.2.oid (insertId pr.1.oid l))
    s.removeIds

/-- SystemBodyPool.update_system from system.py (lines 118-250), one
force/collision tick: Phase A (gravity accumulation and collision
discovery), Phase B (sequential resolution), Phase C (commit of
non-merged pending records, merge synthesis, deduplicated removals, then
additions).  The source removes by object identity and appends the set of
new bodies; with distinct objects that equals the filter/append below. -/
def update_system (pool : List SystemBody) : Except Unit (List SystemBody) := do
  let pend ← pendingUpdates pool
  let gpool ← gravityPool pool pool
  let pb := phaseB pend [] ⟨[], [], []⟩
  let applied := applyAll gpool pb.1 pb.2.mergeIds
  let merged ← synthAll pb.2.mergePairs (nextId pool)
  let removeAll := removeAllIds pb.2
  .ok (applied.filter (fun b => decide (b.oid ∉ removeAll)) ++ merged)

/-- The heatmap surface outcome from create_heatmap_surface in system.py:
either the untouched all-black surface (zero intensity everywhere,
returned by the degenerate min = max branch) or the grid of drawn 8-bit
cell intensities. -/
inductive HSurface where
  | blank : HSurface
  | cells : List (List ℤ) → HSurface
deriving Repr

/-- Python int() truncation toward zero on a rational. -/
def ipart (q : ℚ) : ℤ :=
  if 0 ≤ q then ⌊q⌋ else ⌈q⌉

/-- SystemBodyPool.create_heatmap_surface from system.py (lines 316-350).
math.log is passed in as `flog` (erroring models a math domain error, for
a non-positive argument); no theorem below depends on its values.  The
min/max scan starts from the source sentinels 0 and 1e20; if min - max is
zero the untouched blank surface is returned before any logarithm is
taken; otherwise every cell is log-normalized and truncated to an 8-bit
intensity. -/
def create_heatmap_surface (flog : ℚ → Except Unit ℚ)
    (heatmap : List (List ℚ)) : Except Unit HSurface := do
  let accel_max := heatmap.foldl (fun m row => row.foldl (fun m2 v => max m2 v) m) 0
  let accel_min := heatmap.foldl (fun m row => row.foldl (fun m2 v => min m2 v) m) (10 ^ 20)
  if accel_min - accel_max = 0 then
    .ok .blank
  else do
    let ratio0 ← fdiv accel_max accel_min
    let data_range ← flog ratio0
    let amax ← fdiv accel_max data_range
    let amin ← fdiv accel_min data_range
    let scaled_range := amax - amin
    let rows ← heatmap.mapM fun row =>
      row.mapM fun v => do
        let lv ← flog v
        let a ← fdiv lv data_range
        let b ← fdiv (a - amin) scaled_range
        .ok (ipart (b * 255))
    .ok (.cells rows)

/-! ### Generic helper lemmas -/

@[simp] theorem exc_ok_bind {α β : Type} (a : α) (f : α → Except Unit β) :
    (Except.ok a >>= f) = f a := rfl

@[simp] theorem exc_error_bind {α β : Type} (e : Unit) (f : α → Except Unit β) :
    ((Except.error e : Except Unit α) >>= f) = Except.error e := rfl

theorem fdiv_ok {a b : ℚ} (h : b ≠ 0) : fdiv a b = .ok (a / b) := by
  simp [fdiv, h]

theorem fdiv_err {a b : ℚ} (h : b = 0) : fdiv a b = .error () := by
  simp [fdiv, h]

theorem fsqrt_natCast (n : ℕ) : fsqrt (n : ℚ) = (Nat.sqrt n : ℚ) := by
  simp [fsqrt, Rat.num_natCast, Rat.den_natCast, Int.sqrt_natCast]

theorem fsqrt_eval (q : ℚ) (s : ℕ) (h : q = ((s * s : ℕ) : ℚ)) :
    fsqrt q = (s : ℚ) := by
  subst h; rw [fsqrt_natCast, Nat.sqrt_eq]

theorem fsqrt_pos {q : ℚ} (h : 0 < q) : 0 < fsqrt q := by
  unfold fsqrt
  have hnum : 0 < q.num := Rat.num_pos.mpr h
  have h1 : 0 < Int.sqrt q.num := by
    rw [Int.sqrt]
    have : 0 < q.num.toNat := by omega
    exact_mod_cast Nat.sqrt_pos.mpr this
  have h2 : 0 < Nat.sqrt q.den := Nat.sqrt_pos.mpr q.den_pos
  positivity

theorem mem_insertId {m n : ℕ} {l : List ℕ} :
    m ∈ insertId n l ↔ m = n ∨ m ∈ l := by
  unfold insertId
  split
  · constructor
    · exact fun h => Or.inr h
    · rintro (rfl | h) <;> [assumption; assumption]
  · simp [or_comm]

theorem insertId_mem_self (n : ℕ) (l : List ℕ) : n ∈ insertId n l :=
  mem_insertId.mpr (Or.inl rfl)

theorem insertId_mono {n : ℕ} {l : List ℕ} : l ⊆ insertId n l :=
  fun _ h => mem_insertId.mpr (Or.inr h)

/-! ### Structural lemmas about Phase B -/

theorem processPair_affected (t : UpdateInfo × BState)
    (p : SystemBody × CollisionInfo) :
    (processPair t p).1.affected = t.1.affected := by
  simp only [processPair, transferUpdate]
  split_ifs <;> rfl

theorem processPair_remove_mono (t : UpdateInfo × BState)
    (p : SystemBody × CollisionInfo) :
    t.2.removeIds ⊆ (processPair t p).2.removeIds := by
  simp only [processPair]
  split_ifs <;> first
    | exact fun _ h => h
    | exact fun _ h => insertId_mono h

theorem processPair_merge_mono (t : UpdateInfo × BState)
    (p : SystemBody × CollisionInfo) :
    t.2.mergeIds ⊆ (processPair t p).2.mergeIds := by
  simp only [processPair]
  split_ifs <;> first
    | exact fun _ h => h
    | exact fun _ h => insertId_mono (insertId_mono h)

theorem processPair_pairs_mono (t : UpdateInfo × BState)
    (p : SystemBody × CollisionInfo) {q : SystemBody × SystemBody}
    (h : q ∈ t.2.mergePairs) : q ∈ (processPair t p).2.mergePairs := by
  simp only [processPair]
  split_ifs <;> simp_all

theorem processPair_pairs_new (t : UpdateInfo × BState)
    (p : SystemBody × CollisionInfo) {q : SystemBody × SystemBody}
    (h : q ∈ (processPair t p).2.mergePairs) :
    q ∈ t.2.mergePairs ∨ q = (t.1.affected, p.1) := by
  simp only [processPair] at h
  split_ifs at h <;> simp_all

theorem processPair_remove_new (t : UpdateInfo × BState)
    (p : SystemBody × CollisionInfo) {n : ℕ}
    (h : n ∈ (processPair t p).2.removeIds) :
    n ∈ t.2.removeIds ∨ n = t.1.affected.oid := by
  simp only [processPair] at h
  split_ifs at h <;> first
    | exact Or.inl h
    | simpa [mem_insertId, or_comm] using h

theorem processPair_adds_remove (t : UpdateInfo × BState)
    {p : SystemBody × CollisionInfo}
    (hb : p.2.bias < 1 / 10) (hne : t.1.affected.oid ≠ p.1.oid) :
    t.1.affected.oid ∈ (processPair t p).2.removeIds := by
  simp only [processPair]
  rw [if_neg hne, if_pos hb]
  exact insertId_mem_self _ _

/-- The merge-id set only ever holds identities of bodies recorded in some
merge pair. -/
def MergeIdsSound (s : BState) : Prop :=
  ∀ n ∈ s.mergeIds, ∃ q ∈ s.mergePairs, n = q.1.oid ∨ n = q.2.oid

theorem processPair_mergeIdsSound (t : UpdateInfo × BState)
    (p : SystemBody × CollisionInfo) (h : MergeIdsSound t.2) :
    MergeIdsSound (processPair t p).2 := by
  simp only [processPair]
  split_ifs <;> try exact h
  intro n hn
  simp only [mem_insertId] at hn
  rcases hn with rfl | rfl | hn
  · exact ⟨(t.1.affected, p.1), by simp, Or.inr rfl⟩
  · exact ⟨(t.1.affected, p.1), by simp, Or.inl rfl⟩
  · obtain ⟨q, hq, hq2⟩ := h n hn
    exact ⟨q, by simp [hq], hq2⟩

theorem foldPairs_affected (pairs : List (SystemBody × CollisionInfo)) :
    ∀ t : UpdateInfo × BState,
      (pairs.foldl processPair t).1.affected = t.1.affected := by
  induction pairs with
  | nil => intro t; rfl
  | cons p rest ih =>
    intro t
    rw [List.foldl_cons, ih (processPair t p), processPair_affected]

theorem foldPairs_remove_mono (pairs : List (SystemBody × CollisionInfo)) :
    ∀ t : UpdateInfo × BState,
      t.2.removeIds ⊆ (pairs.foldl processPair t).2.removeIds := by
  induction pairs with
  | nil => intro t; exact fun _ h => h
  | cons p rest ih =>
    intro t
    rw [List.foldl_cons]
    exact fun n hn => ih (processPair t p) (processPair_remove_mono t p hn)

theorem foldPairs_merge_mono (pairs : List (SystemBody × CollisionInfo)) :
    ∀ t : UpdateInfo × BState,
      t.2.mergeIds ⊆ (pairs.foldl processPair t).2.mergeIds := by
  induction pairs with
  | nil => intro t; exact fun _ h => h
  | cons p rest ih =>
    intro t
    rw [List.foldl_cons]
    exact fun n hn => ih (processPair t p) (processPair_merge_mono t p hn)

theorem foldPairs_pairs_mono (pairs : List (SystemBody × CollisionInfo)) :
    ∀ t : UpdateInfo × BState, ∀ q ∈ t.2.mergePairs,
      q ∈ (pairs.foldl processPair t).2.mergePairs := by
  induction pairs with
  | nil => intro t q hq; exact hq
  | cons p rest ih =>
    intro t q hq
    rw [List.foldl_cons]
    exact ih (processPair t p) q (processPair_pairs_mono t p hq)

theorem foldPairs_pairs_new (pairs : List (SystemBody × CollisionInfo)) :
    ∀ t : UpdateInfo × BState, ∀ q ∈ (pairs.foldl processPair t).2.mergePairs,
      q ∈ t.2.mergePairs ∨
        (q.1 = t.1.affected ∧ ∃ i, (q.2, i) ∈ pairs) := by
  induction pairs with
  | nil => intro t q hq; exact Or.inl hq
  | cons p rest ih =>
    intro t q hq
    rw [List.foldl_cons] at hq
    rcases ih (processPair t p) q hq with h | ⟨h1, i, h2⟩
    · rcases processPair_pairs_new t p h with h | rfl
      · exact Or.inl h
      · exact Or.inr ⟨rfl, p.2, by simp⟩
    · rw [processPair_affected] at h1
      exact Or.inr ⟨h1, i, List.mem_cons_of_mem _ h2⟩

theorem foldPairs_remove_new (pairs : List (SystemBody × CollisionInfo)) :
    ∀ t : UpdateInfo × BState, ∀ n ∈ (pairs.foldl processPair t).2.removeIds,
      n ∈ t.2.removeIds ∨ n = t.1.affected.oid := by
  induction pairs with
  | nil => intro t n hn; exact Or.inl hn
  | cons p rest ih =>
    intro t n hn
    rw [List.foldl_cons] at hn
    rcases ih (processPair t p) n hn with h | h
    · rcases processPair_remove_new t p h with h | h
      · exact Or.inl h
      · exact Or.inr h
    · rw [processPair_affected] at h
      exact Or.inr h

theorem foldPairs_adds_remove (pairs : List (SystemBody × CollisionInfo)) :
    ∀ t : UpdateInfo × BState, ∀ p ∈ pairs, p.2.bias < 1 / 10 →
      t.1.affected.oid ≠ p.1.oid →
      t.1.affected.oid ∈ (pairs.foldl processPair t).2.removeIds := by
  induction pairs with
  | nil => intro t p hp; exact absurd hp (List.not_mem_nil p)
  | cons p0 rest ih =>
    intro t p hp hb hne
    rw [List.foldl_cons]
    rcases List.mem_cons.mp hp with rfl | hp2
    · exact foldPairs_remove_mono rest (processPair t p)
        (processPair_adds_remove t hb hne)
    · have := ih (processPair t p0) p hp2 hb
      rw [processPair_affected] at this
      exact this hne

theorem foldPairs_mergeIdsSound (pairs : List (SystemBody × CollisionInfo)) :
    ∀ t : UpdateInfo × BState, MergeIdsSound t.2 →
      MergeIdsSound (pairs.foldl processPair t).2 := by
  induction pairs with
  | nil => intro t h; exact h
  | cons p rest ih =>
    intro t h
    rw [List.foldl_cons]
    exact ih (processPair t p) (processPair_mergeIdsSound t p h)

theorem phaseB_remove_mono (pend : List UpdateInfo) :
    ∀ (acc : List UpdateInfo) (s : BState),
      s.removeIds ⊆ (phaseB pend acc s).2.removeIds := by
  induction pend with
  | nil => intro acc s; exact fun _ h => h
  | cons u rest ih =>
    intro acc s n hn
    simp only [phaseB]
    exact ih _ _ (foldPairs_remove_mono u.affectors (u, s) hn)

theorem phaseB_pairs_mono (pend : List UpdateInfo) :
    ∀ (acc : List UpdateInfo) (s : BState), ∀ q ∈ s.mergePairs,
      q ∈ (phaseB pend acc s).2.mergePairs := by
  induction pend with
  | nil => intro acc s q hq; exact hq
  | cons u rest ih =>
    intro acc s q hq
    simp only [phaseB]
    exact ih _ _ q (foldPairs_pairs_mono u.affectors (u, s) q hq)

theorem phaseB_adds_remove (pend : List UpdateInfo) :
    ∀ (acc : List UpdateInfo) (s : BState), ∀ u ∈ pend,
      ∀ p ∈ u.affectors, p.2.bias < 1 / 10 → u.affected.oid ≠ p.1.oid →
      u.affected.oid ∈ (phaseB pend acc s).2.removeIds := by
  induction pend with
  | nil => intro _ _ u hu; exact absurd hu (List.not_mem_nil u)
  | cons u0 rest ih =>
    intro acc s u hu p hp hb hne
    simp only [phaseB]
    rcases List.mem_cons.mp hu with rfl | hu2
    · exact phaseB_remove_mono rest _ _
        (foldPairs_adds_remove u.affectors (u, s) p hp hb hne)
    · exact ih _ _ u hu2 p hp hb hne

theorem phaseB_pairs_sound (pend : List UpdateInfo) :
    ∀ (acc : List UpdateInfo) (s : BState),
      ∀ q ∈ (phaseB pend acc s).2.mergePairs,
      q ∈ s.mergePairs ∨
        ∃ u ∈ pend, q.1 = u.affected ∧ ∃ i, (q.2, i) ∈ u.affectors := by
  induction pend with
  | nil => intro acc s q hq; exact Or.inl hq
  | cons u0 rest ih =>
    intro acc s q hq
    simp only [phaseB] at hq
    rcases ih _ _ q hq with h | ⟨u, hu, h1, h2⟩
    · rcases foldPairs_pairs_new u0.affectors (u0, s) q h with h | ⟨h1, i, h2⟩
      · exact Or.inl h
      · exact Or.inr ⟨u0, List.mem_cons_self u0 rest, h1, i, h2⟩
    · exact Or.inr ⟨u, List.mem_cons_of_mem _ hu, h1, h2⟩

theorem phaseB_mergeIdsSound (pend : List UpdateInfo) :
    ∀ (acc : List UpdateInfo) (s : BState), MergeIdsSound s →
      MergeIdsSound (phaseB pend acc s).2 := by
  induction pend with
  | nil => intro acc s h; exact h
  | cons u rest ih =>
    intro acc s h
    simp only [phaseB]
    exact ih _ _ (foldPairs_mergeIdsSound u.affectors (u, s) h)

/-! ### Lemmas about the removal set and merge synthesis -/

theorem foldIns_mono (prs : List (SystemBody × SystemBody)) :
    ∀ l : List ℕ,
      l ⊆ prs.foldl (fun l2 pr => insertId pr.2.oid (insertId pr.1.oid l2)) l := by
  induction prs with
  | nil => intro l; exact fun _ h => h
  | cons p rest ih =>
    intro l n hn
    rw [List.foldl_cons]
    exact ih _ (insertId_mono (insertId_mono hn))

theorem foldIns_pair (prs : List (SystemBody × SystemBody)) :
    ∀ l : List ℕ, ∀ q ∈ prs,
      q.1.oid ∈ prs.foldl (fun l2 pr => insertId pr.2.oid (insertId pr.1.oid l2)) l ∧
      q.2.oid ∈ prs.foldl (fun l2 pr => insertId pr.2.oid (insertId pr.1.oid l2)) l := by
  induction prs with
  | nil => intro l q hq; exact absurd hq (List.not_mem_nil q)
  | cons p rest ih =>
    intro l q hq
    rw [List.foldl_cons]
    rcases List.mem_cons.mp hq with rfl | hq2
    · constructor
      · exact foldIns_mono rest _ (insertId_mono (insertId_mem_self _ _))
      · exact foldIns_mono rest _ (insertId_mem_self _ _)
    · exact ih _ q hq2

theorem removeAllIds_base (s : BState) : s.removeIds ⊆ removeAllIds s :=
  foldIns_mono s.mergePairs s.removeIds

theorem pair_mem_removeAll {s : BState} {q : SystemBody × SystemBody}
    (hq : q ∈ s.mergePairs) :
    q.1.oid ∈ removeAllIds s ∧ q.2.oid ∈ removeAllIds s :=
  foldIns_pair s.mergePairs s.removeIds q hq

theorem mergeIds_sub_removeAll {s : BState} (hs : MergeIdsSound s) :
    s.mergeIds ⊆ removeAllIds s := by
  intro n hn
  obtain ⟨q, hq, h2⟩ := hs n hn
  rcases h2 with rfl | rfl
  · exact (pair_mem_removeAll hq).1
  · exact (pair_mem_removeAll hq).2

theorem mergeBody_ok_fields {b1 b2 : SystemBody} {fid : ℕ} {s : SystemBody}
    (h : mergeBody b1 b2 fid = .ok s) :
    b1.mass + b2.mass ≠ 0 ∧
    s.oid = fid ∧
    s.name = b1.name ++ "_" ++ b2.name ∧
    s.mass = b1.mass + b2.mass ∧
    s.radius = b1.radius + b2.radius ∧
    s.color = b1.calc_blended_color b2 (1 / 2) ∧
    s.position = ((b1.position.1 * b1.mass + b2.position.1 * b2.mass) / (b1.mass + b2.mass),
                  (b1.position.2 * b1.mass + b2.position.2 * b2.mass) / (b1.mass + b2.mass)) ∧
    s.velocity = ((b1.velocity.1 * b1.mass + b2.velocity.1 * b2.mass) / (b1.mass + b2.mass),
                  (b1.velocity.2 * b1.mass + b2.velocity.2 * b2.mass) / (b1.mass + b2.mass)) ∧
    s.acceleration = (0, 0) := by
  by_cases hm : b1.mass + b2.mass = 0
  · rw [mergeBody, fdiv_err hm] at h
    simp at h
  · rw [mergeBody, fdiv_ok hm] at h
    simp only [exc_ok_bind, fdiv_ok hm] at h
    refine ⟨hm, ?_⟩
    cases h
    simp

theorem synthAll_mem {prs : List (SystemBody × SystemBody)} {fid : ℕ}
    {out : List SystemBody} (h : synthAll prs fid = .ok out) :
    ∀ q ∈ prs, ∃ s ∈ out, ∃ k, mergeBody q.1 q.2 k = .ok s := by
  induction prs generalizing fid out with
  | nil => intro q hq; exact absurd hq (List.not_mem_nil q)
  | cons p rest ih =>
    intro q hq
    rw [synthAll] at h
    cases hb : mergeBody p.1 p.2 fid with
    | error e => rw [hb] at h; simp at h
    | ok s0 =>
      rw [hb] at h
      cases hr : synthAll rest (fid + 1) with
      | error e => rw [hr] at h; simp at h
      | ok out2 =>
        rw [hr] at h
        simp only [exc_ok_bind] at h
        cases h
        rcases List.mem_cons.mp hq with rfl | hq2
        · exact ⟨s0, List.mem_cons_self _ _, fid, hb⟩
        · obtain ⟨s, hs, k, hk⟩ := ih hr q hq2
          exact ⟨s, List.mem_cons_of_mem _ hs, k, hk⟩

theorem synthAll_oid_ge {prs : List (SystemBody × SystemBody)} {fid : ℕ}
    {out : List SystemBody} (h : synthAll prs fid = .ok out) :
    ∀ s ∈ out, fid ≤ s.oid := by
  induction prs generalizing fid out with
  | nil =>
    rw [synthAll] at h
    cases h
    intro s hs
    exact absurd hs (List.not_mem_nil s)
  | cons p rest ih =>
    rw [synthAll] at h
    cases hb : mergeBody p.1 p.2 fid with
    | error e => rw [hb] at h; simp at h
    | ok s0 =>
      rw [hb] at h
      cases hr : synthAll rest (fid + 1) with
      | error e => rw [hr] at h; simp at h
      | ok out2 =>
        rw [hr] at h
        simp only [exc_ok_bind] at h
        cases h
        intro s hs
        rcases List.mem_cons.mp hs with rfl | hs2
        · exact le_of_eq (mergeBody_ok_fields hb).2.1.symm
        · exact le_trans (Nat.le_succ fid) (ih hr s hs2)

theorem foldMax_init_le (l : List SystemBody) :
    ∀ a : ℕ, a ≤ l.foldl (fun m b2 => max m b2.oid) a := by
  induction l with
  | nil => intro a; exact le_rfl
  | cons y rest ih =>
    intro a
    rw [List.foldl_cons]
    exact le_trans (le_max_left _ _) (ih _)

theorem foldMax_mem_le (l : List SystemBody) :
    ∀ a : ℕ, ∀ x ∈ l, x.oid ≤ l.foldl (fun m b2 => max m b2.oid) a := by
  induction l with
  | nil => intro a x hx; exact absurd hx (List.not_mem_nil x)
  | cons y rest ih =>
    intro a x hx
    rw [List.foldl_cons]
    rcases List.mem_cons.mp hx with rfl | hx2
    · exact le_trans (le_max_right a x.oid) (foldMax_init_le rest _)
    · exact ih _ x hx2

theorem nextId_gt {pool : List SystemBody} {b : SystemBody} (h : b ∈ pool) :
    b.oid < nextId pool :=
  Nat.lt_succ_of_le (foldMax_mem_le pool 0 b h)

/-! ### Identity bookkeeping through commit and gravity passes -/

theorem applyOne_oids (bodies : List SystemBody) (u : UpdateInfo) :
    (applyOne bodies u).map SystemBody.oid = bodies.map SystemBody.oid := by
  unfold applyOne
  rw [List.map_map]
  congr 1
  funext b
  by_cases h : b.oid = u.affected.oid <;> simp [h]

theorem applyAll_oids (ups : List UpdateInfo) :
    ∀ (bodies : List SystemBody) (mids : List ℕ),
      (applyAll bodies ups mids).map SystemBody.oid = bodies.map SystemBody.oid := by
  induction ups with
  | nil => intro bodies mids; rfl
  | cons u rest ih =>
    intro bodies mids
    unfold applyAll
    rw [List.foldl_cons]
    by_cases h : u.affected.oid ∈ mids
    · rw [if_pos h]
      exact ih bodies mids
    · rw [if_neg h]
      rw [show List.foldl _ (applyOne bodies u) rest = applyAll (applyOne bodies u) rest mids from rfl]
      rw [ih _ mids, applyOne_oids]

theorem gravityPool_oids (pool : List SystemBody) :
    ∀ (l out : List SystemBody), gravityPool pool l = .ok out →
      out.map SystemBody.oid = l.map SystemBody.oid := by
  intro l
  induction l with
  | nil =>
    intro out h
    rw [gravityPool] at h
    cases h
    rfl
  | cons b rest ih =>
    intro out h
    rw [gravityPool] at h
    cases hg : gravAccum b pool (0, 0) with
    | error e => rw [hg] at h; simp at h
    | ok g =>
      rw [hg] at h
      cases hr : gravityPool pool rest with
      | error e => rw [hr] at h; simp at h
      | ok out2 =>
        rw [hr] at h
        simp only [exc_ok_bind] at h
        cases h
        simp [ih out2 hr]

/-! ### Soundness of the Phase A scan -/

theorem collPairs_sound {x : SystemBody} :
    ∀ (rest : List SystemBody) (acc prs : List (SystemBody × CollisionInfo)),
      collPairs x rest acc = .ok prs →
      ∀ p ∈ prs, p ∈ acc ∨
        (p.1 ∈ rest ∧ x.oid ≠ p.1.oid ∧
          x.calc_collision_bias p.1 = .ok (some p.2)) := by
  intro rest
  induction rest with
  | nil =>
    intro acc prs h p hp
    rw [collPairs] at h
    cases h
    exact Or.inl hp
  | cons b rest2 ih =>
    intro acc prs h p hp
    rw [collPairs] at h
    by_cases hoid : x.oid = b.oid
    · rw [if_pos hoid] at h
      rcases ih _ _ h p hp with h2 | ⟨h2, h3, h4⟩
      · exact Or.inl h2
      · exact Or.inr ⟨List.mem_cons_of_mem _ h2, h3, h4⟩
    · rw [if_neg hoid] at h
      cases hc : x.calc_collision_bias b with
      | error e => rw [hc] at h; simp at h
      | ok copt =>
        rw [hc] at h
        simp only [exc_ok_bind] at h
        cases copt with
        | none =>
          rcases ih _ _ h p hp with h2 | ⟨h2, h3, h4⟩
          · exact Or.inl h2
          · exact Or.inr ⟨List.mem_cons_of_mem _ h2, h3, h4⟩
        | some info =>
          rcases ih _ _ h p hp with h2 | ⟨h2, h3, h4⟩
          · rcases List.mem_append.mp h2 with h5 | h5
            · exact Or.inl h5
            · rcases List.mem_singleton.mp h5 with rfl
              exact Or.inr ⟨List.mem_cons_self _ _, hoid, hc⟩
          · exact Or.inr ⟨List.mem_cons_of_mem _ h2, h3, h4⟩

theorem pendingAux_sound {pool : List SystemBody} :
    ∀ (rest : List SystemBody) (acc pend : List UpdateInfo),
      pendingAux pool rest acc = .ok pend →
      ∀ u ∈ pend, u ∈ acc ∨
        (u.affected ∈ rest ∧
          ∃ prs, collPairs u.affected pool [] = .ok prs ∧
            u = mkUpdateInfo u.affected prs) := by
  intro rest
  induction rest with
  | nil =>
    intro acc pend h u hu
    rw [pendingAux] at h
    cases h
    exact Or.inl hu
  | cons b rest2 ih =>
    intro acc pend h u hu
    rw [pendingAux] at h
    cases hc : collPairs b pool [] with
    | error e => rw [hc] at h; simp at h
    | ok prs =>
      rw [hc] at h
      simp only [exc_ok_bind] at h
      by_cases hemp : prs.isEmpty
      · rw [if_pos hemp] at h
        rcases ih _ _ h u hu with h2 | ⟨h2, h3⟩
        · exact Or.inl h2
        · exact Or.inr ⟨List.mem_cons_of_mem _ h2, h3⟩
      · rw [if_neg hemp] at h
        rcases ih _ _ h u hu with h2 | ⟨h2, h3⟩
        · rcases List.mem_append.mp h2 with h5 | h5
          · exact Or.inl h5
          · rcases List.mem_singleton.mp h5 with rfl
            exact Or.inr ⟨List.mem_cons_self _ _, prs, hc, rfl⟩
        · exact Or.inr ⟨List.mem_cons_of_mem _ h2, h3⟩

theorem pendingUpdates_sound {pool : List SystemBody} {pend : List UpdateInfo}
    (h : pendingUpdates pool = .ok pend) :
    ∀ u ∈ pend, u.affected ∈ pool ∧
      ∀ p ∈ u.affectors, p.1 ∈ pool ∧ u.affected.oid ≠ p.1.oid ∧
        u.affected.calc_collision_bias p.1 = .ok (some p.2) := by
  intro u hu
  rcases pendingAux_sound pool [] pend h u hu with h2 | ⟨h2, prs, h3, h4⟩
  · exact absurd h2 (List.not_mem_nil u)
  · refine ⟨h2, ?_⟩
    intro p hp
    have haff : u.affectors = prs := by rw [h4]; rfl
    rw [haff] at hp
    rcases collPairs_sound pool [] prs h3 p hp with h5 | ⟨h5, h6, h7⟩
    · exact absurd h5 (List.not_mem_nil p)
    · exact ⟨h5, h6, h7⟩

/-! ### Inversion of a successful tick -/

theorem update_system_ok {pool res : List SystemBody}
    (h : update_system pool = .ok res) :
    ∃ pend gpool merged,
      pendingUpdates pool = .ok pend ∧
      gravityPool pool pool = .ok gpool ∧
      synthAll (phaseB pend [] ⟨[], [], []⟩).2.mergePairs (nextId pool) = .ok merged ∧
      res = (applyAll gpool (phaseB pend [] ⟨[], [], []⟩).1
               (phaseB pend [] ⟨[], [], []⟩).2.mergeIds).filter
              (fun b => decide (b.oid ∉ removeAllIds (phaseB pend [] ⟨[], [], []⟩).2))
            ++ merged := by
  unfold update_system at h
  cases hp : pendingUpdates pool with
  | error e => rw [hp] at h; simp at h
  | ok pend =>
    rw [hp] at h
    simp only [exc_ok_bind] at h
    cases hg : gravityPool pool pool with
    | error e => rw [hg] at h; simp at h
    | ok gpool =>
      rw [hg] at h
      simp only [exc_ok_bind] at h
      cases hm : synthAll (phaseB pend [] ⟨[], [], []⟩).2.mergePairs (nextId pool) with
      | error e => rw [hm] at h; simp at h
      | ok merged =>
        rw [hm] at h
        simp only [exc_ok_bind, Except.ok.injEq] at h
        exact ⟨pend, gpool, merged, rfl, rfl, hm, h.symm⟩

/-- Every body of the result of a successful tick either survives from the
pool (same identity, not marked for removal) or is a freshly synthesized
merge body (identity strictly above every pool identity). -/
theorem update_system_mem_cases {pool res : List SystemBody}
    (h : update_system pool = .ok res)
    {pend : List UpdateInfo} (hp : pendingUpdates pool = .ok pend)
    {b : SystemBody} (hb : b ∈ res) :
    (b.oid ∉ removeAllIds (phaseB pend [] ⟨[], [], []⟩).2 ∧
      ∃ b0 ∈ pool, b.oid = b0.oid) ∨
    nextId pool ≤ b.oid := by
  obtain ⟨pend2, gpool, merged, hp2, hg, hm, hres⟩ := update_system_ok h
  rw [hp] at hp2
  cases hp2
  subst hres
  rcases List.mem_append.mp hb with h2 | h2
  · left
    have hmem := List.mem_filter.mp h2
    refine ⟨by simpa using hmem.2, ?_⟩
    have h3 : b.oid ∈ (applyAll gpool (phaseB pend [] ⟨[], [], []⟩).1
        (phaseB pend [] ⟨[], [], []⟩).2.mergeIds).map SystemBody.oid :=
      List.mem_map_of_mem _ hmem.1
    rw [applyAll_oids, gravityPool_oids pool pool gpool hg] at h3
    obtain ⟨b0, hb0, hoid⟩ := List.mem_map.mp h3
    exact ⟨b0, hb0, hoid.symm⟩
  · right
    exact synthAll_oid_ge hm b h2

/-! ### Claim theorems -/

/-- C1: for every merge pair (b1, b2) resolved in a tick, the synthesized
body has mass exactly mass(b1)+mass(b2), position and velocity exactly the
mass-weighted averages, radius exactly radius(b1)+radius(b2), color the
blended color at bias 0.5, and a name formed by concatenating both names
(joined by an underscore, as in the source); b1 and b2 are removed from
the pool and the new body is added. -/
theorem c1_merge_synthesis {pool res : List SystemBody}
    {pend : List UpdateInfo} {b1 b2 : SystemBody}
    (hu : update_system pool = .ok res)
    (hp : pendingUpdates pool = .ok pend)
    (hpair : (b1, b2) ∈ (phaseB pend [] ⟨[], [], []⟩).2.mergePairs) :
    ∃ s ∈ res,
      s.mass = b1.mass + b2.mass ∧
      s.position = ((b1.position.1 * b1.mass + b2.position.1 * b2.mass) / (b1.mass + b2.mass),
                    (b1.position.2 * b1.mass + b2.position.2 * b2.mass) / (b1.mass + b2.mass)) ∧
      s.velocity = ((b1.velocity.1 * b1.mass + b2.velocity.1 * b2.mass) / (b1.mass + b2.mass),
                    (b1.velocity.2 * b1.mass + b2.velocity.2 * b2.mass) / (b1.mass + b2.mass)) ∧
      s.radius = b1.radius + b2.radius ∧
      s.color = b1.calc_blended_color b2 (1 / 2) ∧
      s.name = b1.name ++ "_" ++ b2.name ∧
      ∀ b ∈ res, b.oid ≠ b1.oid ∧ b.oid ≠ b2.oid := by
  obtain ⟨pend2, gpool, merged, hp2, hg, hm, hres⟩ := update_system_ok hu
  rw [hp] at hp2
  cases hp2
  obtain ⟨s, hs, k, hk⟩ := synthAll_mem hm (b1, b2) hpair
  obtain ⟨hm0, hoid, hname, hmass, hrad, hcol, hposition, hvel, hacc⟩ :=
    mergeBody_ok_fields hk
  have hb1pool : b1 ∈ pool ∧ b2 ∈ pool := by
    rcases phaseB_pairs_sound pend [] ⟨[], [], []⟩ (b1, b2) hpair with h2 | ⟨u, hu2, h3, i, h4⟩
    · exact absurd h2 (List.not_mem_nil _)
    · obtain ⟨ha, hforall⟩ := pendingUpdates_sound hp u hu2
      have h5 := hforall (b2, i) h4
      have h6 : b1 = u.affected := h3
      rw [h6]
      exact ⟨ha, h5.1⟩
  have hrm := pair_mem_removeAll hpair
  refine ⟨s, ?_, hmass, hposition, hvel, hrad, hcol, hname, ?_⟩
  · rw [hres]
    exact List.mem_append.mpr (Or.inr hs)
  · intro b hb
    rcases update_system_mem_cases hu hp hb with ⟨hno, b0, hb0, hoideq⟩ | hge
    · constructor
      · intro hcontra
        rw [hcontra] at hno
        exact hno hrm.1
      · intro hcontra
        rw [hcontra] at hno
        exact hno hrm.2
    · constructor
      · intro hcontra
        have := nextId_gt hb1pool.1
        omega
      · intro hcontra
        have := nextId_gt hb1pool.2
        omega

/-- C2 (amended): for every pending collision pair with bias below 0.1 the
affected body is marked for full removal and is absent from the pool after
the tick.  (The source continues, rather than stops, processing the
remaining collisions of that body, so its mass can still be transferred
into a merge-synthesized body; see the counterexample.) -/
theorem c2_absorption_removal {pool res : List SystemBody}
    {pend : List UpdateInfo} {u : UpdateInfo}
    {p : SystemBody × CollisionInfo}
    (hu : update_system pool = .ok res)
    (hp : pendingUpdates pool = .ok pend)
    (hmem : u ∈ pend) (hpmem : p ∈ u.affectors) (hb : p.2.bias < 1 / 10) :
    u.affected.oid ∈ (phaseB pend [] ⟨[], [], []⟩).2.removeIds ∧
    ∀ b ∈ res, b.oid ≠ u.affected.oid := by
  obtain ⟨haffpool, hforall⟩ := pendingUpdates_sound hp u hmem
  have hne : u.affected.oid ≠ p.1.oid := (hforall p hpmem).2.1
  have hrem : u.affected.oid ∈ (phaseB pend [] ⟨[], [], []⟩).2.removeIds :=
    phaseB_adds_remove pend [] ⟨[], [], []⟩ u hmem p hpmem hb hne
  refine ⟨hrem, ?_⟩
  intro b hbres
  rcases update_system_mem_cases hu hp hbres with ⟨hno, b0, hb0, hoideq⟩ | hge
  · intro hcontra
    rw [hcontra] at hno
    exact hno (removeAllIds_base _ hrem)
  · intro hcontra
    have := nextId_gt haffpool
    omega

/-- C10: every body claimed by a merge pair has its pending
partial-transfer record discarded (it never reaches the committed pool:
the body is absent from the result altogether), and the merged body is
computed from the records the two bodies held at the start of the tick
(pool members, untouched by the pending updates of the same tick). -/
theorem c10_merge_uses_tick_start {pool res : List SystemBody}
    {pend : List UpdateInfo}
    (hu : update_system pool = .ok res)
    (hp : pendingUpdates pool = .ok pend) :
    (∀ u ∈ pend, u.affected.oid ∈ (phaseB pend [] ⟨[], [], []⟩).2.mergeIds →
       ∀ b ∈ res, b.oid ≠ u.affected.oid) ∧
    ∀ q ∈ (phaseB pend [] ⟨[], [], []⟩).2.mergePairs,
      q.1 ∈ pool ∧ q.2 ∈ pool ∧
      ∃ s ∈ res, s.mass = q.1.mass + q.2.mass ∧
        s.position = ((q.1.position.1 * q.1.mass + q.2.position.1 * q.2.mass) / (q.1.mass + q.2.mass),
                      (q.1.position.2 * q.1.mass + q.2.position.2 * q.2.mass) / (q.1.mass + q.2.mass)) ∧
        s.velocity = ((q.1.velocity.1 * q.1.mass + q.2.velocity.1 * q.2.mass) / (q.1.mass + q.2.mass),
                      (q.1.velocity.2 * q.1.mass + q.2.velocity.2 * q.2.mass) / (q.1.mass + q.2.mass)) := by
  have hsound : MergeIdsSound (phaseB pend [] ⟨[], [], []⟩).2 := by
    apply phaseB_mergeIdsSound
    intro n hn
    exact absurd hn (List.not_mem_nil n)
  constructor
  · intro u hmem hmid b hbres
    obtain ⟨haffpool, _⟩ := pendingUpdates_sound hp u hmem
    rcases update_system_mem_cases hu hp hbres with ⟨hno, b0, hb0, hoideq⟩ | hge
    · intro hcontra
      rw [hcontra] at hno
      exact hno (mergeIds_sub_removeAll hsound hmid)
    · intro hcontra
      have := nextId_gt haffpool
      omega
  · intro q hq
    obtain ⟨pend2, gpool, merged, hp2, hg, hm, hres⟩ := update_system_ok hu
    rw [hp] at hp2
    cases hp2
    have hqpool : q.1 ∈ pool ∧ q.2 ∈ pool := by
      rcases phaseB_pairs_sound pend [] ⟨[], [], []⟩ q hq with h2 | ⟨u, hu2, h3, i, h4⟩
      · exact absurd h2 (List.not_mem_nil _)
      · obtain ⟨ha, hforall⟩ := pendingUpdates_sound hp u hu2
        have h5 := hforall (q.2, i) h4
        rw [h3]
        exact ⟨ha, h5.1⟩
    obtain ⟨s, hs, k, hk⟩ := synthAll_mem hm q hq
    obtain ⟨hm0, hoid, hname, hmass, hrad, hcol, hposition, hvel, hacc⟩ :=
      mergeBody_ok_fields hk
    refine ⟨hqpool.1, hqpool.2, s, ?_, hmass, hposition, hvel⟩
    rw [hres]
    exact List.mem_append.mpr (Or.inr hs)

/-- If the normal component of the relative velocity is nonnegative (or
the bodies do not overlap), calc_collision_bias returns none, provided
the collision normal is defined (distinct positions). -/
theorem collision_sep_none {a b : SystemBody}
    (hmag : (a.position.1 - b.position.1) ^ 2 + (a.position.2 - b.position.2) ^ 2 ≠ 0)
    (hsep : 0 ≤ (a.velocity.1 - b.velocity.1) *
        ((a.position.1 - b.position.1) /
          ((a.position.1 - b.position.1) ^ 2 + (a.position.2 - b.position.2) ^ 2)) +
      (a.velocity.2 - b.velocity.2) *
        ((a.position.2 - b.position.2) /
          ((a.position.1 - b.position.1) ^ 2 + (a.position.2 - b.position.2) ^ 2))) :
    a.calc_collision_bias b = .ok none := by
  unfold SystemBody.calc_collision_bias
  dsimp only
  by_cases hint : a.radius + b.radius -
      fsqrt ((a.position.1 - b.position.1) ^ 2 + (a.position.2 - b.position.2) ^ 2) < 0
  · rw [if_pos hint]
  · rw [if_neg hint, fdiv_ok hmag, fdiv_ok hmag]
    simp only [exc_ok_bind]
    rw [if_pos hsep]

theorem gravVec_ok {x y : SystemBody}
    (h : (y.position.1 - x.position.1) ^ 2 + (y.position.2 - x.position.2) ^ 2 ≠ 0) :
    ∃ v, gravVec x y = .ok v := by
  unfold gravVec SystemBody.calc_gravity_acceleration
  dsimp only
  rw [fdiv_ok h]
  simp only [exc_ok_bind]
  by_cases hd : fsqrt ((x.position.1 - y.position.1) ^ 2 + (x.position.2 - y.position.2) ^ 2) = 0
  · rw [if_pos hd]; exact ⟨_, rfl⟩
  · rw [if_neg hd]; exact ⟨_, rfl⟩

/-- A tick over a two-body pool whose pair produces no CollisionInfo in
either direction changes nothing but the accelerations: no pending
update exists, so mass, radius, color, position, velocity and membership
are all preserved. -/
theorem two_body_tick {a b : SystemBody}
    (hmag : (a.position.1 - b.position.1) ^ 2 + (a.position.2 - b.position.2) ^ 2 ≠ 0)
    (hca : a.calc_collision_bias b = .ok none)
    (hcb : b.calc_collision_bias a = .ok none) :
    ∃ a2 b2, update_system [a, b] = .ok [a2, b2] ∧
      a2.oid = a.oid ∧ a2.name = a.name ∧ a2.mass = a.mass ∧
      a2.radius = a.radius ∧ a2.color = a.color ∧
      a2.position = a.position ∧ a2.velocity = a.velocity ∧
      b2.oid = b.oid ∧ b2.name = b.name ∧ b2.mass = b.mass ∧
      b2.radius = b.radius ∧ b2.color = b.color ∧
      b2.position = b.position ∧ b2.velocity = b.velocity := by
  have hmag2 : (b.position.1 - a.position.1) ^ 2 + (b.position.2 - a.position.2) ^ 2 ≠ 0 := by
    intro hc
    apply hmag
    linear_combination hc
  have hpend : pendingUpdates [a, b] = .ok [] := by
    by_cases hoid : a.oid = b.oid
    · simp [pendingUpdates, pendingAux, collPairs, hoid]
    · have hoid2 : ¬ b.oid = a.oid := fun hc => hoid hc.symm
      simp [pendingUpdates, pendingAux, collPairs, hoid, hoid2, hca, hcb]
  have hgrav : ∃ ga gb, gravAccum a [a, b] (0, 0) = .ok ga ∧
      gravAccum b [a, b] (0, 0) = .ok gb := by
    by_cases hoid : a.oid = b.oid
    · exact ⟨(0, 0), (0, 0), by simp [gravAccum, hoid], by simp [gravAccum, hoid.symm]⟩
    · have hoid2 : ¬ b.oid = a.oid := fun hc => hoid hc.symm
      obtain ⟨va, hva⟩ := gravVec_ok (x := a) (y := b) hmag2
      obtain ⟨vb, hvb⟩ := gravVec_ok (x := b) (y := a) hmag
      refine ⟨(0 + va.1, 0 + va.2), (0 + vb.1, 0 + vb.2), ?_, ?_⟩
      · simp [gravAccum, hoid, hva]
      · simp [gravAccum, hoid2, hvb]
  obtain ⟨ga, gb, hga, hgb⟩ := hgrav
  refine ⟨{ a with acceleration := (a.acceleration.1 + ga.1, a.acceleration.2 + ga.2) },
          { b with acceleration := (b.acceleration.1 + gb.1, b.acceleration.2 + gb.2) }, ?_, by simp⟩
  unfold update_system
  rw [hpend]
  simp only [exc_ok_bind]
  have hgp : gravityPool [a, b] [a, b] = .ok
      [{ a with acceleration := (a.acceleration.1 + ga.1, a.acceleration.2 + ga.2) },
       { b with acceleration := (b.acceleration.1 + gb.1, b.acceleration.2 + gb.2) }] := by
    simp only [gravityPool, hga, hgb, exc_ok_bind]
  rw [hgp]
  simp only [exc_ok_bind]
  simp [phaseB, applyAll, synthAll, removeAllIds, List.filter]

/-- C3: for every pair of overlapping bodies (at distinct positions, so
that the collision normal is defined) whose relative velocity has a
nonnegative component along the collision normal, calc_collision_bias
returns none in both directions, and a tick over the two-body pool leaves
both bodies with their mass, radius, color, position and velocity
unchanged (only gravity accelerations accumulate). -/
theorem c3_separating_no_response (a b : SystemBody)
    (hmag : (a.position.1 - b.position.1) ^ 2 + (a.position.2 - b.position.2) ^ 2 ≠ 0)
    (hover : 0 ≤ a.radius + b.radius -
      fsqrt ((a.position.1 - b.position.1) ^ 2 + (a.position.2 - b.position.2) ^ 2))
    (hsep : 0 ≤ (a.velocity.1 - b.velocity.1) *
        ((a.position.1 - b.position.1) /
          ((a.position.1 - b.position.1) ^ 2 + (a.position.2 - b.position.2) ^ 2)) +
      (a.velocity.2 - b.velocity.2) *
        ((a.position.2 - b.position.2) /
          ((a.position.1 - b.position.1) ^ 2 + (a.position.2 - b.position.2) ^ 2))) :
    a.calc_collision_bias b = .ok none ∧
    b.calc_collision_bias a = .ok none ∧
    ∃ a2 b2, update_system [a, b] = .ok [a2, b2] ∧
      a2.oid = a.oid ∧ a2.name = a.name ∧ a2.mass = a.mass ∧
      a2.radius = a.radius ∧ a2.color = a.color ∧
      a2.position = a.position ∧ a2.velocity = a.velocity ∧
      b2.oid = b.oid ∧ b2.name = b.name ∧ b2.mass = b.mass ∧
      b2.radius = b.radius ∧ b2.color = b.color ∧
      b2.position = b.position ∧ b2.velocity = b.velocity := by
  have hmagBA : (b.position.1 - a.position.1) ^ 2 + (b.position.2 - a.position.2) ^ 2 ≠ 0 := by
    intro hc
    apply hmag
    linear_combination hc
  have hM : (b.position.1 - a.position.1) ^ 2 + (b.position.2 - a.position.2) ^ 2
      = (a.position.1 - b.position.1) ^ 2 + (a.position.2 - b.position.2) ^ 2 := by ring
  have hsepBA : 0 ≤ (b.velocity.1 - a.velocity.1) *
      ((b.position.1 - a.position.1) /
        ((b.position.1 - a.position.1) ^ 2 + (b.position.2 - a.position.2) ^ 2)) +
    (b.velocity.2 - a.velocity.2) *
      ((b.position.2 - a.position.2) /
        ((b.position.1 - a.position.1) ^ 2 + (b.position.2 - a.position.2) ^ 2)) := by
    rw [hM]
    have hswap : (b.velocity.1 - a.velocity.1) *
        ((b.position.1 - a.position.1) /
          ((a.position.1 - b.position.1) ^ 2 + (a.position.2 - b.position.2) ^ 2)) +
      (b.velocity.2 - a.velocity.2) *
        ((b.position.2 - a.position.2) /
          ((a.position.1 - b.position.1) ^ 2 + (a.position.2 - b.position.2) ^ 2))
        = (a.velocity.1 - b.velocity.1) *
        ((a.position.1 - b.position.1) /
          ((a.position.1 - b.position.1) ^ 2 + (a.position.2 - b.position.2) ^ 2)) +
      (a.velocity.2 - b.velocity.2) *
        ((a.position.2 - b.position.2) /
          ((a.position.1 - b.position.1) ^ 2 + (a.position.2 - b.position.2) ^ 2)) := by
      ring
    rw [hswap]
    exact hsep
  have hca := collision_sep_none hmag hsep
  have hcb := collision_sep_none hmagBA hsepBA
  exact ⟨hca, hcb, two_body_tick hmag hca hcb⟩

/-- C6: whenever the scanned grid minimum (fold from the 1e20 sentinel)
equals the scanned maximum (fold from the 0 sentinel) — which covers the
empty-pool case of an all-zero grid — create_heatmap_surface returns the
untouched blank zero-intensity surface, without ever calling the
logarithm, hence no domain error and no non-finite value. -/
theorem c6_degenerate_field_blank (flog : ℚ → Except Unit ℚ)
    (heatmap : List (List ℚ))
    (hmm : heatmap.foldl (fun m row => row.foldl (fun m2 v => min m2 v) m) (10 ^ 20)
         = heatmap.foldl (fun m row => row.foldl (fun m2 v => max m2 v) m) 0) :
    create_heatmap_surface flog heatmap = .ok .blank := by
  unfold create_heatmap_surface
  dsimp only
  rw [if_pos (sub_eq_zero.mpr hmm)]

/-- C9 (amended): gravityAtPoint floors the squared distance to at least
radius^2 and returns force G / flooredDistanceSquared; the returned
direction is the raw displacement scaled by 1 / sqrt(flooredDistanceSquared),
which is a unit vector when the sample point is at distance at least the
radius (no flooring, given an exact square root), but is shorter than unit
when the floor engages (see the counterexample). -/
theorem c9_gravity_at_point (b : SystemBody) (point : Vec2)
    (hr : 0 < b.radius) :
    ∃ info, b.calc_gravity_at_point point = .ok info ∧
      info.force = GRAVITY_CONSTANT /
        max ((point.1 - b.position.1) ^ 2 + (point.2 - b.position.2) ^ 2) (b.radius ^ 2) ∧
      b.radius ^ 2 ≤
        max ((point.1 - b.position.1) ^ 2 + (point.2 - b.position.2) ^ 2) (b.radius ^ 2) ∧
      ((b.radius ^ 2 ≤ (point.1 - b.position.1) ^ 2 + (point.2 - b.position.2) ^ 2) →
        fsqrt ((point.1 - b.position.1) ^ 2 + (point.2 - b.position.2) ^ 2) *
          fsqrt ((point.1 - b.position.1) ^ 2 + (point.2 - b.position.2) ^ 2) =
          (point.1 - b.position.1) ^ 2 + (point.2 - b.position.2) ^ 2 →
        info.direction.1 ^ 2 + info.direction.2 ^ 2 = 1) := by
  have hD : (0 : ℚ) < max ((point.1 - b.position.1) ^ 2 + (point.2 - b.position.2) ^ 2) (b.radius ^ 2) :=
    lt_max_of_lt_right (by positivity)
  have hdist : 0 < fsqrt (max ((point.1 - b.position.1) ^ 2 + (point.2 - b.position.2) ^ 2) (b.radius ^ 2)) :=
    fsqrt_pos hD
  unfold SystemBody.calc_gravity_at_point
  dsimp only
  rw [fdiv_ok (ne_of_gt hD)]
  simp only [exc_ok_bind]
  rw [fdiv_ok (ne_of_gt hdist), fdiv_ok (ne_of_gt hdist)]
  simp only [exc_ok_bind]
  refine ⟨_, rfl, rfl, le_max_right _ _, ?_⟩
  intro hge hex
  have hmax : max ((point.1 - b.position.1) ^ 2 + (point.2 - b.position.2) ^ 2) (b.radius ^ 2)
      = (point.1 - b.position.1) ^ 2 + (point.2 - b.position.2) ^ 2 :=
    max_eq_left hge
  dsimp only
  rw [hmax]
  rw [hmax] at hdist
  have hraw : (point.1 - b.position.1) ^ 2 + (point.2 - b.position.2) ^ 2 ≠ 0 := by
    have := lt_of_lt_of_le (by positivity : (0:ℚ) < b.radius ^ 2) hge
    exact ne_of_gt this
  rw [div_pow, div_pow, div_add_div_same,
    pow_two (fsqrt ((point.1 - b.position.1) ^ 2 + (point.2 - b.position.2) ^ 2)), hex]
  exact div_self hraw

/-! ### Concrete scenario bodies -/

/-- Two overlapping bodies at exactly the same position (valid bodies:
positive mass and radius), moving toward nothing in particular; the input
exhibiting the unguarded division by zero of the collision-normal
computation. -/
def coincA : SystemBody :=
  SystemBody.init 0 "coincA" 5 5 (255, 0, 0) (0, 0) (1, 0)

def coincB : SystemBody :=
  SystemBody.init 1 "coincB" 5 5 (255, 0, 0) (0, 0) (-1, 0)

/-- C4: the collision computation is not guarded against two bodies at
exactly identical positions: the intersection test passes (overlap is the
sum of the radii) and the collision-normal division by the zero squared
magnitude of the relative position raises ZeroDivisionError (modelled as
an error result).  The zero-relative-velocity normalization hazard, by
contrast, is unreachable: a zero relative velocity has normal component 0
and is returned as none before the normalization (second conjunct, at the
same geometry with distinct positions). -/
theorem c4_coincident_not_guarded :
    coincA.calc_collision_bias coincB = .error () ∧
    ∀ a b : SystemBody,
      (a.position.1 - b.position.1) ^ 2 + (a.position.2 - b.position.2) ^ 2 ≠ 0 →
      a.velocity = b.velocity →
      a.calc_collision_bias b = .ok none := by
  constructor
  · have h0 : fsqrt 0 = 0 := fsqrt_eval 0 0 (by norm_num)
    norm_num [SystemBody.calc_collision_bias, coincA, coincB, SystemBody.init,
      fdiv, h0]
  · intro a b hmag hvel
    apply collision_sep_none hmag
    rw [show a.velocity.1 = b.velocity.1 from by rw [hvel],
        show a.velocity.2 = b.velocity.2 from by rw [hvel]]
    simp

/-- C5: SystemBody.__init__ performs no validation and no clamping: a body
constructed with negative mass, negative radius and out-of-range color
channels is created successfully and stores every value verbatim.  (The
spec requires non-positive mass/radius to be rejected and channels to be
clamped to [0, 255]; the source has no such checks.) -/
theorem c5_construction_unvalidated :
    (SystemBody.init 7 "bad" (-1) (-2) (300, -5, 999) (1, 2) (3, 4)).mass = -1 ∧
    (SystemBody.init 7 "bad" (-1) (-2) (300, -5, 999) (1, 2) (3, 4)).radius = -2 ∧
    (SystemBody.init 7 "bad" (-1) (-2) (300, -5, 999) (1, 2) (3, 4)).color = (300, -5, 999) ∧
    (SystemBody.init 7 "bad" (-1) (-2) (300, -5, 999) (1, 2) (3, 4)).position = (1, 2) ∧
    (SystemBody.init 7 "bad" (-1) (-2) (300, -5, 999) (1, 2) (3, 4)).velocity = (3, 4) ∧
    (SystemBody.init 7 "bad" (-1) (-2) (300, -5, 999) (1, 2) (3, 4)).acceleration = (0, 0) := by
  refine ⟨rfl, rfl, rfl, rfl, rfl, rfl⟩

/-! ### Order independence of the gravity accumulation (for C8) -/

/-- Total-function companion of `gravVec`, defined on pairs at distinct
positions (where `gravVec` succeeds); used to state order independence. -/
def gravVecVal (x y : SystemBody) : Vec2 :=
  let acceleration := GRAVITY_CONSTANT * y.mass /
    ((y.position.1 - x.position.1) ^ 2 + (y.position.2 - x.position.2) ^ 2)
  let dx := x.position.1 - y.position.1
  let dy := x.position.2 - y.position.2
  let dist := fsqrt (dx ^ 2 + dy ^ 2)
  if dist = 0 then (-acceleration, 0)
  else (-(acceleration * dx) / dist, -(acceleration * dy) / dist)

theorem gravVec_eq_val {x y : SystemBody}
    (h : (y.position.1 - x.position.1) ^ 2 + (y.position.2 - x.position.2) ^ 2 ≠ 0) :
    gravVec x y = .ok (gravVecVal x y) := by
  unfold gravVec gravVecVal SystemBody.calc_gravity_acceleration
  dsimp only
  rw [fdiv_ok h]
  simp only [exc_ok_bind]
  by_cases hd : fsqrt ((x.position.1 - y.position.1) ^ 2 + (x.position.2 - y.position.2) ^ 2) = 0
  · rw [if_pos hd, if_pos hd]
  · rw [if_neg hd, if_neg hd]

theorem gravVec_err {x y : SystemBody}
    (h : (y.position.1 - x.position.1) ^ 2 + (y.position.2 - x.position.2) ^ 2 = 0) :
    gravVec x y = .error () := by
  unfold gravVec SystemBody.calc_gravity_acceleration
  dsimp only
  rw [fdiv_err h]
  simp only [exc_error_bind]

/-- The pure accumulation step corresponding to one iteration of the
gravity half of the Phase A inner loop. -/
def gravStep (x : SystemBody) (acc : Vec2) (y : SystemBody) : Vec2 :=
  if x.oid = y.oid then acc
  else (acc.1 + (gravVecVal x y).1, acc.2 + (gravVecVal x y).2)

theorem gravAccum_eq_foldl {x : SystemBody} {l : List SystemBody}
    (h : ∀ y ∈ l, ¬ x.oid = y.oid →
      (y.position.1 - x.position.1) ^ 2 + (y.position.2 - x.position.2) ^ 2 ≠ 0) :
    ∀ acc : Vec2, gravAccum x l acc = .ok (l.foldl (gravStep x) acc) := by
  induction l with
  | nil => intro acc; rfl
  | cons y rest ih =>
    intro acc
    rw [gravAccum, List.foldl_cons]
    by_cases hoid : x.oid = y.oid
    · rw [if_pos hoid]
      rw [show gravStep x acc y = acc from by unfold gravStep; rw [if_pos hoid]]
      exact ih (fun z hz => h z (List.mem_cons_of_mem _ hz)) acc
    · rw [if_neg hoid]
      rw [gravVec_eq_val (h y (List.mem_cons_self _ _) hoid)]
      simp only [exc_ok_bind]
      rw [show gravStep x acc y =
          (acc.1 + (gravVecVal x y).1, acc.2 + (gravVecVal x y).2) from by
        unfold gravStep; rw [if_neg hoid]]
      exact ih (fun z hz => h z (List.mem_cons_of_mem _ hz)) _

theorem gravAccum_err {x : SystemBody} {l : List SystemBody}
    (h : ∃ y ∈ l, ¬ x.oid = y.oid ∧
      (y.position.1 - x.position.1) ^ 2 + (y.position.2 - x.position.2) ^ 2 = 0) :
    ∀ acc : Vec2, gravAccum x l acc = .error () := by
  induction l with
  | nil =>
    obtain ⟨y, hy, _⟩ := h
    exact absurd hy (List.not_mem_nil y)
  | cons y0 rest ih =>
    intro acc
    rw [gravAccum]
    obtain ⟨y, hy, hoid, hzero⟩ := h
    by_cases hoid0 : x.oid = y0.oid
    · rw [if_pos hoid0]
      rcases List.mem_cons.mp hy with rfl | hy2
      · exact absurd hoid0 hoid
      · exact ih ⟨y, hy2, hoid, hzero⟩ acc
    · rw [if_neg hoid0]
      rcases List.mem_cons.mp hy with rfl | hy2
      · rw [gravVec_err hzero]
        simp only [exc_error_bind]
      · cases hg : gravVec x y0 with
        | error e => simp only [exc_error_bind]
        | ok v =>
          simp only [exc_ok_bind]
          exact ih ⟨y, hy2, hoid, hzero⟩ _

/-- C8 (amended): the gravity accumulation of a tick is order-independent:
for any permutation of the body list, the gravity half of Phase A
accumulates exactly the same total acceleration for a given body (the
accumulation is a sum of commuting contributions).  The collision
resolution of the tick, by contrast, is iteration-order dependent; see
the counterexample. -/
theorem c8_gravity_order_independent (x : SystemBody)
    {P Q : List SystemBody} (hperm : P.Perm Q) :
    gravAccum x P (0, 0) = gravAccum x Q (0, 0) := by
  by_cases hall : ∀ y ∈ P, ¬ x.oid = y.oid →
      (y.position.1 - x.position.1) ^ 2 + (y.position.2 - x.position.2) ^ 2 ≠ 0
  · have hallQ : ∀ y ∈ Q, ¬ x.oid = y.oid →
        (y.position.1 - x.position.1) ^ 2 + (y.position.2 - x.position.2) ^ 2 ≠ 0 :=
      fun y hy => hall y (hperm.mem_iff.mpr hy)
    rw [gravAccum_eq_foldl hall, gravAccum_eq_foldl hallQ]
    congr 1
    apply hperm.foldl_eq'
    intro u hu v hv z
    unfold gravStep
    split_ifs <;> first
      | rfl
      | exact Prod.ext (by dsimp only; ring) (by dsimp only; ring)
  · push_neg at hall
    obtain ⟨y, hy, hoid, hzero⟩ := hall
    rw [gravAccum_err ⟨y, hy, hoid, hzero⟩, gravAccum_err ⟨y, hperm.mem_iff.mp hy, hoid, hzero⟩]

/-- The spec §8 scenario bodies: A {mass 1000, radius 50, pos (0,0),
vel (0,0)} and B {mass 10, radius 5, pos (52,0), vel (0,0)}. -/
def bodyA7 : SystemBody := SystemBody.init 0 "A" 1000 50 (255, 0, 0) (0, 0) (0, 0)

def bodyB7 : SystemBody := SystemBody.init 1 "B" 10 5 (255, 0, 0) (52, 0) (0, 0)

/-- Absorption scenario: a small body overlapped by a large body moving
into it and by a medium body moving into it, all on the x-axis. -/
def bodyS : SystemBody := SystemBody.init 0 "S" 10 5 (255, 0, 0) (0, 0) (0, 0)

def bodyL : SystemBody := SystemBody.init 1 "L" 1000 40 (255, 0, 0) (40, 0) (-2, 0)

def bodyM : SystemBody := SystemBody.init 2 "M" 30 18 (255, 0, 0) (-20, 0) (3, 0)

/-- Equal-mass head-on merge scenario (spec §8, second scenario shape). -/
def bodyP : SystemBody := SystemBody.init 0 "P" 50 10 (255, 0, 0) (0, 0) (1, 0)

def bodyQ : SystemBody := SystemBody.init 1 "Q" 50 10 (255, 0, 0) (15, 0) (-1, 0)

/-- Three pairwise-overlapping, pairwise-approaching bodies on the x-axis
with distinct masses; all six ordered pairs satisfy the merge test, so
the first-claim-wins merge pairing depends on iteration order. -/
def bodyX : SystemBody := SystemBody.init 0 "X" 100 7 (255, 0, 0) (0, 0) (1, 0)

def bodyY : SystemBody := SystemBody.init 1 "Y" 200 4 (255, 0, 0) (6, 0) (0, 0)

def bodyZ : SystemBody := SystemBody.init 2 "Z" 400 7 (255, 0, 0) (13, 0) (-1, 0)

/-- Field-sampling body for the gravity-at-point claims. -/
def bodyG : SystemBody := SystemBody.init 0 "G" 1 10 (255, 0, 0) (0, 0) (0, 0)

def bodyG2 : SystemBody := SystemBody.init 0 "G2" 1 5 (255, 0, 0) (0, 0) (0, 0)

/-- Overlapping but separating pair for the C3 witness. -/
def bodySepA : SystemBody := SystemBody.init 0 "sa" 10 10 (255, 0, 0) (0, 0) (-1, 0)

def bodySepB : SystemBody := SystemBody.init 1 "sb" 10 10 (255, 0, 0) (15, 0) (1, 0)

/-- A stand-in for math.log in witnesses: errors on the math domain
(non-positive arguments), arbitrary value elsewhere.  The degenerate-grid
theorem holds for every flog. -/
def flogW : ℚ → Except Unit ℚ := fun q => if q ≤ 0 then .error () else .ok 0

/-- The CollisionInfo records produced in the absorption scenario. -/
def infoSL : CollisionInfo :=
  { granularity := 10, bias := 1 / 101, impulse := 10000 / 101, reflect_dir := (-399 / 400, 0) }

def infoSM : CollisionInfo :=
  { granularity := 10, bias := 1 / 4, impulse := 27 / 4, reflect_dir := (197 / 200, 0) }

def infoLS : CollisionInfo :=
  { granularity := 10, bias := 100 / 101, impulse := 1 / 101, reflect_dir := (399 / 400, 0) }

def infoMS : CollisionInfo :=
  { granularity := 10, bias := 3 / 4, impulse := 3 / 4, reflect_dir := (-197 / 200, 0) }

def pendSLM : List UpdateInfo :=
  [mkUpdateInfo bodyS [(bodyL, infoSL), (bodyM, infoSM)],
   mkUpdateInfo bodyL [(bodyS, infoLS)],
   mkUpdateInfo bodyM [(bodyS, infoMS)]]

/-- The CollisionInfo records produced in the equal-mass merge scenario. -/
def infoPQ : CollisionInfo :=
  { granularity := 10, bias := 1 / 2, impulse := 20 / 3, reflect_dir := (-221 / 225, 0) }

def infoQP : CollisionInfo :=
  { granularity := 10, bias := 1 / 2, impulse := 20 / 3, reflect_dir := (221 / 225, 0) }

def pendPQ : List UpdateInfo :=
  [mkUpdateInfo bodyP [(bodyQ, infoPQ)], mkUpdateInfo bodyQ [(bodyP, infoQP)]]

/-- The bodies synthesized by the merges of the two scenarios. -/
def mergedSM : SystemBody :=
  { oid := 3, name := "S_M", mass := 40, radius := 23, color := (255, 0, 0),
    position := (-15, 0), velocity := (9 / 4, 0), acceleration := (0, 0) }

def mergedLS : SystemBody :=
  { oid := 4, name := "L_S", mass := 1010, radius := 45, color := (255, 0, 0),
    position := (4000 / 101, 0), velocity := (-200 / 101, 0), acceleration := (0, 0) }

def mergedPQ : SystemBody :=
  { oid := 2, name := "P_Q", mass := 100, radius := 20, color := (255, 0, 0),
    position := (15 / 2, 0), velocity := (0, 0), acceleration := (0, 0) }

/-! ### Evaluation lemmas for the concrete scenarios -/

theorem pendSLM_ok : pendingUpdates [bodyS, bodyL, bodyM] = .ok pendSLM := by
  have h1 : fsqrt 1600 = 40 := fsqrt_eval 1600 40 (by norm_num)
  have h2 : fsqrt 400 = 20 := fsqrt_eval 400 20 (by norm_num)
  have h3 : fsqrt 3600 = 60 := fsqrt_eval 3600 60 (by norm_num)
  have h4 : fsqrt 4 = 2 := fsqrt_eval 4 2 (by norm_num)
  have h5 : fsqrt 9 = 3 := fsqrt_eval 9 3 (by norm_num)
  norm_num [pendingUpdates, pendingAux, collPairs, SystemBody.calc_collision_bias,
    fdiv, bodyS, bodyL, bodyM, SystemBody.init, pendSLM, mkUpdateInfo,
    infoSL, infoSM, infoLS, infoMS, h1, h2, h3, h4, h5,
    GRAVITY_CONSTANT, SYSTEM_SCALE, COLLISION_DAMPENING]

theorem phaseSLM_state :
    (phaseB pendSLM [] ⟨[], [], []⟩).2 =
      ⟨[0], [0, 2, 1], [(bodyS, bodyM), (bodyL, bodyS)]⟩ := by
  norm_num [phaseB, processUpdate, processPair, transferUpdate, mergeCond,
    mergeAngleCond, TAN005, insertId, pendSLM, mkUpdateInfo, infoSL, infoSM,
    infoLS, infoMS, bodyS, bodyL, bodyM, SystemBody.init,
    SystemBody.calc_blended_color, rgb_to_hsva, hsva_to_rgb]

theorem runSLM : update_system [bodyS, bodyL, bodyM] = .ok [mergedSM, mergedLS] := by
  have h1 : fsqrt 1600 = 40 := fsqrt_eval 1600 40 (by norm_num)
  have h2 : fsqrt 400 = 20 := fsqrt_eval 400 20 (by norm_num)
  have h3 : fsqrt 3600 = 60 := fsqrt_eval 3600 60 (by norm_num)
  have h4 : fsqrt 4 = 2 := fsqrt_eval 4 2 (by norm_num)
  have h5 : fsqrt 9 = 3 := fsqrt_eval 9 3 (by norm_num)
  norm_num [update_system, pendingUpdates, pendingAux, collPairs, gravityPool,
    gravAccum, gravVec, SystemBody.calc_collision_bias,
    SystemBody.calc_gravity_acceleration, fdiv, phaseB, processUpdate,
    processPair, transferUpdate, mergeCond, mergeAngleCond, TAN005, insertId,
    applyAll, applyOne, synthAll, mergeBody, nextId, removeAllIds,
    SystemBody.calc_blended_color, rgb_to_hsva, hsva_to_rgb, mkUpdateInfo,
    bodyS, bodyL, bodyM, SystemBody.init, mergedSM, mergedLS,
    h1, h2, h3, h4, h5, GRAVITY_CONSTANT, SYSTEM_SCALE, COLLISION_DAMPENING]
  exact ⟨rfl, rfl⟩

theorem pendPQ_ok : pendingUpdates [bodyP, bodyQ] = .ok pendPQ := by
  have h1 : fsqrt 225 = 15 := fsqrt_eval 225 15 (by norm_num)
  have h2 : fsqrt 4 = 2 := fsqrt_eval 4 2 (by norm_num)
  norm_num [pendingUpdates, pendingAux, collPairs, SystemBody.calc_collision_bias,
    fdiv, bodyP, bodyQ, SystemBody.init, pendPQ, mkUpdateInfo, infoPQ, infoQP,
    h1, h2, GRAVITY_CONSTANT, SYSTEM_SCALE, COLLISION_DAMPENING]

theorem phasePQ_state :
    (phaseB pendPQ [] ⟨[], [], []⟩).2 = ⟨[], [0, 1], [(bodyP, bodyQ)]⟩ := by
  norm_num [phaseB, processUpdate, processPair, transferUpdate, mergeCond,
    mergeAngleCond, TAN005, insertId, pendPQ, mkUpdateInfo, infoPQ, infoQP,
    bodyP, bodyQ, SystemBody.init,
    SystemBody.calc_blended_color, rgb_to_hsva, hsva_to_rgb]

theorem runPQ : update_system [bodyP, bodyQ] = .ok [mergedPQ] := by
  have h1 : fsqrt 225 = 15 := fsqrt_eval 225 15 (by norm_num)
  have h2 : fsqrt 4 = 2 := fsqrt_eval 4 2 (by norm_num)
  norm_num [update_system, pendingUpdates, pendingAux, collPairs, gravityPool,
    gravAccum, gravVec, SystemBody.calc_collision_bias,
    SystemBody.calc_gravity_acceleration, fdiv, phaseB, processUpdate,
    processPair, transferUpdate, mergeCond, mergeAngleCond, TAN005, insertId,
    applyAll, applyOne, synthAll, mergeBody, nextId, removeAllIds,
    SystemBody.calc_blended_color, rgb_to_hsva, hsva_to_rgb, mkUpdateInfo,
    bodyP, bodyQ, SystemBody.init, mergedPQ,
    h1, h2, GRAVITY_CONSTANT, SYSTEM_SCALE, COLLISION_DAMPENING]
  rfl

theorem runA7B7 : update_system [bodyA7, bodyB7] =
    .ok [{ bodyA7 with acceleration := (66743 / 2704, 0) },
         { bodyB7 with acceleration := (-1668575 / 676, 0) }] := by
  have h1 : fsqrt 2704 = 52 := fsqrt_eval 2704 52 (by norm_num)
  norm_num [update_system, pendingUpdates, pendingAux, collPairs, gravityPool,
    gravAccum, gravVec, SystemBody.calc_collision_bias,
    SystemBody.calc_gravity_acceleration, fdiv, phaseB, applyAll, synthAll,
    nextId, removeAllIds, bodyA7, bodyB7, SystemBody.init, h1,
    GRAVITY_CONSTANT]

def mergedXY : SystemBody :=
  { oid := 3, name := "X_Y", mass := 300, radius := 11, color := (255, 0, 0),
    position := (4, 0), velocity := (1 / 3, 0), acceleration := (0, 0) }

def mergedZX : SystemBody :=
  { oid := 4, name := "Z_X", mass := 500, radius := 14, color := (255, 0, 0),
    position := (52 / 5, 0), velocity := (-3 / 5, 0), acceleration := (0, 0) }

def mergedZY : SystemBody :=
  { oid := 3, name := "Z_Y", mass := 600, radius := 11, color := (255, 0, 0),
    position := (32 / 3, 0), velocity := (-2 / 3, 0), acceleration := (0, 0) }

def mergedXZ : SystemBody :=
  { oid := 4, name := "X_Z", mass := 500, radius := 14, color := (255, 0, 0),
    position := (52 / 5, 0), velocity := (-3 / 5, 0), acceleration := (0, 0) }

theorem runXYZ : update_system [bodyX, bodyY, bodyZ] = .ok [mergedXY, mergedZX] := by
  have h1 : fsqrt 36 = 6 := fsqrt_eval 36 6 (by norm_num)
  have h2 : fsqrt 169 = 13 := fsqrt_eval 169 13 (by norm_num)
  have h3 : fsqrt 49 = 7 := fsqrt_eval 49 7 (by norm_num)
  have h4 : fsqrt 1 = 1 := fsqrt_eval 1 1 (by norm_num)
  have h5 : fsqrt 4 = 2 := fsqrt_eval 4 2 (by norm_num)
  norm_num [update_system, pendingUpdates, pendingAux, collPairs, gravityPool,
    gravAccum, gravVec, SystemBody.calc_collision_bias,
    SystemBody.calc_gravity_acceleration, fdiv, phaseB, processUpdate,
    processPair, transferUpdate, mergeCond, mergeAngleCond, TAN005, insertId,
    applyAll, applyOne, synthAll, mergeBody, nextId, removeAllIds,
    SystemBody.calc_blended_color, rgb_to_hsva, hsva_to_rgb, mkUpdateInfo,
    bodyX, bodyY, bodyZ, SystemBody.init, mergedXY, mergedZX,
    h1, h2, h3, h4, h5, GRAVITY_CONSTANT, SYSTEM_SCALE, COLLISION_DAMPENING]
  exact ⟨rfl, rfl⟩

theorem runZYX : update_system [bodyZ, bodyY, bodyX] = .ok [mergedZY, mergedXZ] := by
  have h1 : fsqrt 36 = 6 := fsqrt_eval 36 6 (by norm_num)
  have h2 : fsqrt 169 = 13 := fsqrt_eval 169 13 (by norm_num)
  have h3 : fsqrt 49 = 7 := fsqrt_eval 49 7 (by norm_num)
  have h4 : fsqrt 1 = 1 := fsqrt_eval 1 1 (by norm_num)
  have h5 : fsqrt 4 = 2 := fsqrt_eval 4 2 (by norm_num)
  norm_num [update_system, pendingUpdates, pendingAux, collPairs, gravityPool,
    gravAccum, gravVec, SystemBody.calc_collision_bias,
    SystemBody.calc_gravity_acceleration, fdiv, phaseB, processUpdate,
    processPair, transferUpdate, mergeCond, mergeAngleCond, TAN005, insertId,
    applyAll, applyOne, synthAll, mergeBody, nextId, removeAllIds,
    SystemBody.calc_blended_color, rgb_to_hsva, hsva_to_rgb, mkUpdateInfo,
    bodyX, bodyY, bodyZ, SystemBody.init, mergedZY, mergedXZ,
    h1, h2, h3, h4, h5, GRAVITY_CONSTANT, SYSTEM_SCALE, COLLISION_DAMPENING]
  exact ⟨rfl, rfl⟩

/-- C7 (counterexample): at the exact spec §8 input (both velocities
zero), the tick does not remove B: the result still holds both bodies
(identities of A and B, masses 1000 and 10), refuting the claimed outcome
that the pool contains only A. -/
theorem c7_counterexample :
    ∃ r, update_system [bodyA7, bodyB7] = .ok r ∧
      r.map SystemBody.oid = [bodyA7.oid, bodyB7.oid] ∧
      r.map SystemBody.mass = [1000, 10] ∧
      ¬ r.map SystemBody.oid = [bodyA7.oid] := by
  refine ⟨_, runA7B7, ?_, ?_, ?_⟩ <;> simp [bodyA7, bodyB7, SystemBody.init]

/-- C7 (amended): with both velocities zero the overlapping pair is not
approaching: the relative velocity has normal component 0, so
calc_collision_bias returns none in both directions, no collision is
recorded, and after one pass both bodies remain with mass and radius
unchanged; only the gravity accelerations have accumulated. -/
theorem c7_zero_velocity_no_absorption :
    bodyA7.calc_collision_bias bodyB7 = .ok none ∧
    bodyB7.calc_collision_bias bodyA7 = .ok none ∧
    update_system [bodyA7, bodyB7] =
      .ok [{ bodyA7 with acceleration := (66743 / 2704, 0) },
           { bodyB7 with acceleration := (-1668575 / 676, 0) }] := by
  have h1 : fsqrt 2704 = 52 := fsqrt_eval 2704 52 (by norm_num)
  refine ⟨?_, ?_, runA7B7⟩ <;>
    norm_num [SystemBody.calc_collision_bias, fdiv, bodyA7, bodyB7,
      SystemBody.init, h1]

/-- C2 (counterexample): in the three-body absorption scenario the small
body S is marked for removal by its bias-1/101 pair with L, yet its later
pair with M is still processed and claims S for a merge: the tick result
contains the synthesized body S_M of mass mass(S) + mass(M), so
processing did not stop and the mass of S was transferred. -/
theorem c2_counterexample :
    ∃ pend, pendingUpdates [bodyS, bodyL, bodyM] = .ok pend ∧
      (∃ u ∈ pend, u.affected = bodyS ∧ ∃ p ∈ u.affectors, p.2.bias < 1 / 10) ∧
      (bodyS, bodyM) ∈ (phaseB pend [] ⟨[], [], []⟩).2.mergePairs ∧
      ∃ r, update_system [bodyS, bodyL, bodyM] = .ok r ∧
        ∃ s ∈ r, s.mass = bodyS.mass + bodyM.mass ∧ s.name = "S_M" := by
  refine ⟨pendSLM, pendSLM_ok, ?_, ?_, [mergedSM, mergedLS], runSLM, mergedSM,
    by simp, ?_, rfl⟩
  · refine ⟨mkUpdateInfo bodyS [(bodyL, infoSL), (bodyM, infoSM)],
      by simp [pendSLM], rfl, (bodyL, infoSL), by simp [mkUpdateInfo],
      by norm_num [infoSL]⟩
  · rw [phaseSLM_state]
    simp
  · norm_num [mergedSM, bodyS, bodyM, SystemBody.init]

/-- Witness for the amended C2 theorem at the three-body scenario. -/
theorem c2_absorption_removal_witness :
    0 ∈ (phaseB pendSLM [] ⟨[], [], []⟩).2.removeIds ∧
    ∀ b ∈ [mergedSM, mergedLS], b.oid ≠ 0 := by
  have h := @c2_absorption_removal [bodyS, bodyL, bodyM] [mergedSM, mergedLS]
    pendSLM (mkUpdateInfo bodyS [(bodyL, infoSL), (bodyM, infoSM)])
    (bodyL, infoSL) runSLM pendSLM_ok (by simp [pendSLM])
    (by simp [mkUpdateInfo]) (by norm_num [infoSL])
  simpa [mkUpdateInfo, bodyS, SystemBody.init] using h

/-- Witness for C1 at the equal-mass head-on merge scenario. -/
theorem c1_merge_synthesis_witness :
    ∃ s ∈ [mergedPQ],
      s.mass = bodyP.mass + bodyQ.mass ∧
      s.position = ((bodyP.position.1 * bodyP.mass + bodyQ.position.1 * bodyQ.mass) / (bodyP.mass + bodyQ.mass),
                    (bodyP.position.2 * bodyP.mass + bodyQ.position.2 * bodyQ.mass) / (bodyP.mass + bodyQ.mass)) ∧
      s.velocity = ((bodyP.velocity.1 * bodyP.mass + bodyQ.velocity.1 * bodyQ.mass) / (bodyP.mass + bodyQ.mass),
                    (bodyP.velocity.2 * bodyP.mass + bodyQ.velocity.2 * bodyQ.mass) / (bodyP.mass + bodyQ.mass)) ∧
      s.radius = bodyP.radius + bodyQ.radius ∧
      s.color = bodyP.calc_blended_color bodyQ (1 / 2) ∧
      s.name = bodyP.name ++ "_" ++ bodyQ.name ∧
      ∀ b ∈ [mergedPQ], b.oid ≠ bodyP.oid ∧ b.oid ≠ bodyQ.oid := by
  apply c1_merge_synthesis runPQ pendPQ_ok
  rw [phasePQ_state]
  simp

/-- Witness for C10 at the equal-mass head-on merge scenario. -/
theorem c10_merge_uses_tick_start_witness :
    (∀ u ∈ pendPQ, u.affected.oid ∈ (phaseB pendPQ [] ⟨[], [], []⟩).2.mergeIds →
       ∀ b ∈ [mergedPQ], b.oid ≠ u.affected.oid) ∧
    ∀ q ∈ (phaseB pendPQ [] ⟨[], [], []⟩).2.mergePairs,
      q.1 ∈ [bodyP, bodyQ] ∧ q.2 ∈ [bodyP, bodyQ] ∧
      ∃ s ∈ [mergedPQ], s.mass = q.1.mass + q.2.mass ∧
        s.position = ((q.1.position.1 * q.1.mass + q.2.position.1 * q.2.mass) / (q.1.mass + q.2.mass),
                      (q.1.position.2 * q.1.mass + q.2.position.2 * q.2.mass) / (q.1.mass + q.2.mass)) ∧
        s.velocity = ((q.1.velocity.1 * q.1.mass + q.2.velocity.1 * q.2.mass) / (q.1.mass + q.2.mass),
                      (q.1.velocity.2 * q.1.mass + q.2.velocity.2 * q.2.mass) / (q.1.mass + q.2.mass)) :=
  c10_merge_uses_tick_start runPQ pendPQ_ok

/-- C8 (counterexample): permuting the pool changes the physics outcome:
the pool [X, Y, Z] and its reversal merge into different bodies (mass
multiset {300, 500} versus {600, 500}). -/
theorem c8_counterexample :
    [bodyX, bodyY, bodyZ].Perm [bodyZ, bodyY, bodyX] ∧
    update_system [bodyX, bodyY, bodyZ] = .ok [mergedXY, mergedZX] ∧
    update_system [bodyZ, bodyY, bodyX] = .ok [mergedZY, mergedXZ] ∧
    [mergedXY, mergedZX].map SystemBody.mass = [300, 500] ∧
    [mergedZY, mergedXZ].map SystemBody.mass = [600, 500] ∧
    ¬ ([mergedXY, mergedZX].map SystemBody.mass).Perm
        ([mergedZY, mergedXZ].map SystemBody.mass) := by
  refine ⟨?_, runXYZ, runZYX, by simp [mergedXY, mergedZX],
    by simp [mergedZY, mergedXZ], ?_⟩
  · exact (List.reverse_perm [bodyX, bodyY, bodyZ]).symm
  · intro h
    have h2 := (h.mem_iff (a := (300 : ℚ))).mp
      (by simp [mergedXY, mergedZX])
    simp [mergedZY, mergedXZ] at h2

/-- Witness for the amended C8 theorem on a concrete two-body pool. -/
theorem c8_gravity_order_independent_witness :
    gravAccum bodyX [bodyX, bodyY] (0, 0) = gravAccum bodyX [bodyY, bodyX] (0, 0) :=
  c8_gravity_order_independent bodyX (List.Perm.swap bodyY bodyX [])

/-- C9 (counterexample): sampling a point strictly inside the body radius
engages the distance floor, and the returned direction is then not a unit
vector: for a body of radius 10 at the origin, the point (3, 4) yields
direction (3/10, 2/5) of squared magnitude 1/4. -/
theorem c9_counterexample :
    ∃ info, bodyG.calc_gravity_at_point (3, 4) = .ok info ∧
      info.force = GRAVITY_CONSTANT / 100 ∧
      info.direction = (3 / 10, 2 / 5) ∧
      info.direction.1 ^ 2 + info.direction.2 ^ 2 ≠ 1 := by
  have h1 : fsqrt 100 = 10 := fsqrt_eval 100 10 (by norm_num)
  refine ⟨{ force := GRAVITY_CONSTANT / 100, direction := (3 / 10, 2 / 5) },
    ?_, rfl, rfl, by norm_num⟩
  norm_num [SystemBody.calc_gravity_at_point, fdiv, bodyG, SystemBody.init,
    h1, max_def, GRAVITY_CONSTANT]

/-- Witness for the amended C9 theorem: outside the radius and with an
exact square root, the direction is unit. -/
theorem c9_gravity_at_point_witness :
    ∃ info, bodyG2.calc_gravity_at_point (6, 8) = .ok info ∧
      info.direction.1 ^ 2 + info.direction.2 ^ 2 = 1 := by
  obtain ⟨info, hok, hforce, hfloor, hunit⟩ :=
    c9_gravity_at_point bodyG2 (6, 8) (by norm_num [bodyG2, SystemBody.init])
  refine ⟨info, hok, hunit ?_ ?_⟩
  · norm_num [bodyG2, SystemBody.init]
  · have h1 : fsqrt 100 = 10 := fsqrt_eval 100 10 (by norm_num)
    norm_num [bodyG2, SystemBody.init, h1]

/-- Witness for C4: the zero-relative-velocity half of the guard claim,
instantiated at the two zero-velocity bodies of the spec scenario. -/
theorem c4_coincident_not_guarded_witness :
    coincA.calc_collision_bias coincB = .error () ∧
    bodyA7.calc_collision_bias bodyB7 = .ok none := by
  refine ⟨c4_coincident_not_guarded.1, ?_⟩
  exact c4_coincident_not_guarded.2 bodyA7 bodyB7
    (by norm_num [bodyA7, bodyB7, SystemBody.init]) rfl

/-- Witness for C6: the all-zero two-by-two grid (empty-pool field). -/
theorem c6_degenerate_field_blank_witness :
    create_heatmap_surface flogW [[0, 0], [0, 0]] = .ok .blank := by
  apply c6_degenerate_field_blank
  norm_num [List.foldl, min_def, max_def]

/-- Witness for C3 at a concrete overlapping, separating pair. -/
theorem c3_separating_no_response_witness :
    bodySepA.calc_collision_bias bodySepB = .ok none ∧
    bodySepB.calc_collision_bias bodySepA = .ok none ∧
    ∃ a2 b2, update_system [bodySepA, bodySepB] = .ok [a2, b2] ∧
      a2.oid = bodySepA.oid ∧ a2.name = bodySepA.name ∧ a2.mass = bodySepA.mass ∧
      a2.radius = bodySepA.radius ∧ a2.color = bodySepA.color ∧
      a2.position = bodySepA.position ∧ a2.velocity = bodySepA.velocity ∧
      b2.oid = bodySepB.oid ∧ b2.name = bodySepB.name ∧ b2.mass = bodySepB.mass ∧
      b2.radius = bodySepB.radius ∧ b2.color = bodySepB.color ∧
      b2.position = bodySepB.position ∧ b2.velocity = bodySepB.velocity := by
  have h1 : fsqrt 225 = 15 := fsqrt_eval 225 15 (by norm_num)
  exact c3_separating_no_response bodySepA bodySepB
    (by norm_num [bodySepA, bodySepB, SystemBody.init])
    (by norm_num [bodySepA, bodySepB, SystemBody.init, h1])
    (by norm_num [bodySepA, bodySepB, SystemBody.init])
